import Mathlib

/-!
Verification of the VT52 game/demo servers
(`vt52-guess-the-animal-game.py`, `vt52-test-server.py`).

The Python source is shallowly embedded:

* bytes are `Nat` values (the source only ever builds bytes from ASCII
  literals and `bytes([n])`, which raises `ValueError` unless
  `0 ≤ n < 256`);
* the two connection classes' `send`/`receive`/`close` calls are modelled
  by a small trace monad `M`: the k-th `send` succeeds or raises
  `ConnectionError` according to an oracle `so : Nat → Bool`
  (`socket.error` / `SerialException` during write), and each `receive`
  consumes the next entry of an input oracle `List RecvRes`
  (`.bytes bs` = the bytes delivered, `.lost` = the read raised);
  an exhausted input oracle also models line failure.  Every connection
  operation is recorded in a trace of `Action`s;
* `time.sleep` calls have no observable effect and are dropped;
* Python `while` loops become fuel-indexed recursion; running out of
  fuel raises the artificial exception `Exc.fuelOut`, which the
  catch-all `except Exception` in `run_game` treats like any exception.
-/

namespace VT52

/-- ESC byte `b'\x1B'`. -/
def ESC : Nat := 0x1B

/-- `b'Y'` (CURSOR_POS). -/
def CURSOR_POS : Nat := 0x59

/-- `b'H'` (CURSOR_HOME). -/
def CURSOR_HOME : Nat := 0x48

/-- `b'J'` (ERASE_SCREEN). -/
def ERASE_SCREEN : Nat := 0x4A

/-- `str.encode()` for the ASCII strings the programs send. -/
def encodeStr (s : String) : List Nat := s.toList.map Char.toNat

/-- `bytes.upper()` on a single byte (ASCII a-z mapped to A-Z). -/
def upperByte (b : Nat) : Nat := if 97 ≤ b ∧ b ≤ 122 then b - 32 else b

/-- Lexicographic `<=` on Python `bytes`, used by `char >= b'A' and char <= b'Z'`. -/
def bytesLe : List Nat → List Nat → Bool
  | [], _ => true
  | _ :: _, [] => false
  | a :: as, b :: bs => if a < b then true else if b < a then false else bytesLe as bs

/-- Python list indexing `l[i]` (negative indices address from the end;
any other out-of-range index raises `IndexError`, modelled as `none`). -/
def pyIndex (l : List α) (i : Int) : Option α :=
  if 0 ≤ i then
    (if i < (l.length : Int) then l.get? i.toNat else none)
  else
    (if 0 ≤ (l.length : Int) + i then l.get? ((l.length : Int) + i).toNat else none)

/-- `bytes([n])`: `some [n]` when `0 ≤ n < 256`, else `ValueError` (`none`). -/
def byteOf (n : Int) : Option (List Nat) :=
  if 0 ≤ n ∧ n < 256 then some [n.toNat] else none

/--
The byte string built by `position_cursor` (identical in
`AnimalGame.position_cursor` and `VT52Demo.position_cursor`):
`ESC + CURSOR_POS + bytes([row + 31]) + bytes([col + 31])`.
`none` models the `ValueError` raised by `bytes([...])` when
`row + 31` or `col + 31` falls outside `0..255`.
-/
def positionCursorBytes (row col : Int) : Option (List Nat) :=
  match byteOf (row + 31), byteOf (col + 31) with
  | some rb, some cb => some ([ESC, CURSOR_POS] ++ rb ++ cb)
  | _, _ => none

/-! ### Transport receive models (C3)

`TelnetConnection.receive` is `try: return self.socket.recv(size)
except socket.error: raise ConnectionError(...)`.  The behaviour of the
underlying primitives on a blocking socket / pyserial port (Python
runtime semantics, not repository code) is modelled by small event
types: `socket.recv` returns the delivered bytes, returns `b''` on an
orderly peer close, and raises `socket.error` on a transport error;
`serial.Serial(port, baudrate)` is constructed without a timeout, so
`Serial.read(size)` blocks until data arrives and raises
`SerialException` when the line goes away. -/

/-- Events a blocking `socket.recv` call can observe. -/
inductive NetEv
  | dataArrived (bs : List Nat)
  | peerClosed
  | sockError
deriving DecidableEq, Repr

/-- `socket.recv` semantics on the event: data → the bytes, orderly peer
close → `b''`, transport error → raise `socket.error` (`.error ()`). -/
def socketRecv : NetEv → Except Unit (List Nat)
  | .dataArrived bs => .ok bs
  | .peerClosed => .ok []
  | .sockError => .error ()

/-- `TelnetConnection.receive`: wraps `socket.recv`, converting
`socket.error` to `ConnectionError` and passing every other result
through unchanged. -/
def telnetReceive (ev : NetEv) : Except Unit (List Nat) :=
  match socketRecv ev with
  | .ok bs => .ok bs
  | .error _ => .error ()

/-- Events a blocking `Serial.read` call can observe (no timeout is
configured, so the read never returns empty without an error). -/
inductive SerEv
  | dataArrived (bs : List Nat)
  | serError
deriving DecidableEq, Repr

/-- `serial.Serial.read` semantics on the event. -/
def serialRead : SerEv → Except Unit (List Nat)
  | .dataArrived bs => .ok bs
  | .serError => .error ()

/-- `SerialConnection.receive`: wraps `Serial.read`, converting
`SerialException` to `ConnectionError`. -/
def serialReceive (ev : SerEv) : Except Unit (List Nat) :=
  match serialRead ev with
  | .ok bs => .ok bs
  | .error _ => .error ()

/-! ### Serial close (C4) and serial-open failure (C8) -/

/-- The state of a pyserial port that `SerialConnection.close` reads. -/
structure SerialPort where
  is_open : Bool
deriving DecidableEq, Repr

/-- `SerialConnection.close`: `if self.serial.is_open: self.serial.close()`. -/
def serialCloseOp (s : SerialPort) : SerialPort :=
  if s.is_open then { is_open := false } else s

/-- Outcome of constructing `SerialConnection` (opening the port). -/
inductive OpenRes
  | opened
  | serialError (msg : String)
deriving DecidableEq, Repr

/-- Observable process-level outcome of `run_serial_game` /
`run_serial_demo` followed by `main` returning: which diagnostic was
printed, whether a session was started, and the process exit code.
The source catches `serial.SerialException` (printing
`"Serial port error: ..."`) and every other `Exception`, then falls off
the end of `main`, so the Python process always exits with code 0. -/
structure SerialRunOut where
  diag : Option String
  sessionStarted : Bool
  exitCode : Nat
deriving DecidableEq, Repr

/-- `run_serial_game(port, baudrate)` (and identically
`run_serial_demo`): `try: connection = SerialConnection(...); ...
except serial.SerialException as e: print(f"Serial port error: {e}")`,
after which `main` returns normally. -/
def run_serial_game (res : OpenRes) : SerialRunOut :=
  match res with
  | .opened => { diag := none, sessionStarted := true, exitCode := 0 }
  | .serialError e =>
      { diag := some ("Serial port error: " ++ e), sessionStarted := false, exitCode := 0 }

end VT52

namespace VT52

/-! ### The connection trace monad -/

/-- Exceptions: `ConnectionError`, any other Python exception
(`ValueError`/`IndexError`), and the artificial out-of-fuel marker. -/
inductive Exc
  | connLost
  | pyError
  | fuelOut
deriving DecidableEq, Repr

/-- One entry of the receive oracle: the bytes a `receive(1)` call
finds, or a raised `ConnectionError`. -/
inductive RecvRes
  | bytes (bs : List Nat)
  | lost
deriving DecidableEq, Repr

/-- One recorded connection operation. -/
inductive Action
  | send (ok : Bool) (data : List Nat)
  | recv (res : RecvRes)
  | close
deriving DecidableEq, Repr

/-- Result of running a session fragment: outcome, number of sends so
far, remaining receive oracle, and the recorded trace. -/
structure Out (α : Type) where
  res : Except Exc α
  sc : Nat
  rcv : List RecvRes
  tr : List Action

/-- The session monad: send-failure oracle, send counter, receive oracle. -/
def M (α : Type) : Type := (Nat → Bool) → Nat → List RecvRes → Out α

def M.pure (a : α) : M α := fun _ sc r => ⟨.ok a, sc, r, []⟩

def M.bind (m : M α) (f : α → M β) : M β := fun so sc r =>
  let o := m so sc r
  match o.res with
  | .ok a =>
      let o2 := f a so o.sc o.rcv
      ⟨o2.res, o2.sc, o2.rcv, o.tr ++ o2.tr⟩
  | .error e => ⟨.error e, o.sc, o.rcv, o.tr⟩

instance : Monad M where
  pure := M.pure
  bind := M.bind

/-- Raise an exception. -/
def raiseExc (e : Exc) : M α := fun _ sc r => ⟨.error e, sc, r, []⟩

/-- `connection.send(data)`: consult the send-failure oracle; a failed
send raises `ConnectionError`. -/
def connSend (d : List Nat) : M Unit := fun so sc r =>
  ⟨if so sc then .ok () else .error .connLost, sc + 1, r, [.send (so sc) d]⟩

/-- `connection.receive(1)`: consume the next oracle entry; at most one
byte is returned; a `.lost` entry (or an exhausted oracle, modelling the
line failing) raises `ConnectionError`. -/
def connRecv : M (List Nat) := fun _ sc r =>
  match r with
  | .bytes bs :: rest => ⟨.ok (bs.take 1), sc, rest, [.recv (.bytes bs)]⟩
  | .lost :: rest => ⟨.error .connLost, sc, rest, [.recv .lost]⟩
  | [] => ⟨.error .connLost, sc, [], [.recv .lost]⟩

/-- `connection.close()`. -/
def connClose : M Unit := fun _ sc r => ⟨.ok (), sc, r, [.close]⟩

/-- `try: m except ConnectionError: h` — catches only `ConnectionError`. -/
def tryConn (m h : M α) : M α := fun so sc r =>
  let o := m so sc r
  match o.res with
  | .error .connLost =>
      let o2 := h so o.sc o.rcv
      ⟨o2.res, o2.sc, o2.rcv, o.tr ++ o2.tr⟩
  | _ => o

/-- `try: m except ...: h` with a catch-all handler (as in `run_game`,
whose `except Exception` arm swallows everything; the artificial
`fuelOut` is treated the same way). -/
def tryAll (m h : M α) : M α := fun so sc r =>
  let o := m so sc r
  match o.res with
  | .error _ =>
      let o2 := h so o.sc o.rcv
      ⟨o2.res, o2.sc, o2.rcv, o.tr ++ o2.tr⟩
  | .ok _ => o

end VT52

namespace VT52

/-! ### `AnimalGame` (vt52-guess-the-animal-game.py) -/

/-- The fixed animal-name list. -/
def animals : List String :=
  ["LION", "TIGER", "BEAR", "ELEPHANT", "GIRAFFE",
   "ZEBRA", "MONKEY", "KANGAROO", "PENGUIN", "DOLPHIN",
   "SNAKE", "EAGLE", "WOLF", "FOX", "DEER"]

/-- `self.max_attempts = 6`. -/
def max_attempts : Nat := 6

/-- `position_cursor(row, col)`: send the 4-byte absolute-position
command; an out-of-byte-range coordinate raises `ValueError`. -/
def position_cursor (row col : Int) : M Unit :=
  match positionCursorBytes row col with
  | some d => connSend d
  | none => raiseExc .pyError

/-- `clear_screen()`: one send of `ESC H ESC J`. -/
def clear_screen : M Unit := connSend [ESC, CURSOR_HOME, ESC, ERASE_SCREEN]

/-- The 7 hangman stage pictures from `draw_hangman`. -/
def stages : List (List String) :=
  [["  +---+", "  |   |", "      |", "      |", "      |", "      |", "========="],
   ["  +---+", "  |   |", "  O   |", "      |", "      |", "      |", "========="],
   ["  +---+", "  |   |", "  O   |", "  |   |", "      |", "      |", "========="],
   ["  +---+", "  |   |", "  O   |", " /|   |", "      |", "      |", "========="],
   ["  +---+", "  |   |", "  O   |", " /|\\  |", "      |", "      |", "========="],
   ["  +---+", "  |   |", "  O   |", " /|\\  |", " /    |", "      |", "========="],
   ["  +---+", "  |   |", "  O   |", " /|\\  |", " / \\  |", "      |", "========="]]

/-- The `for i, line in enumerate(stage_art)` loop of `draw_hangman`. -/
def sendArtLines : List String → Int → M Unit
  | [], _ => M.pure ()
  | line :: rest, i => do
      position_cursor (3 + i) 5
      connSend (encodeStr line)
      sendArtLines rest (i + 1)

/-- `draw_hangman(stage)`: note the `stage` parameter is unused in the
source; the picture is `stages[self.max_attempts - self.attempts_left]`
(Python indexing). -/
def draw_hangman (stage : Nat) (attempts_left : Nat) : M Unit :=
  match pyIndex stages ((max_attempts : Int) - (attempts_left : Int)) with
  | some art => sendArtLines art 0
  | none => raiseExc .pyError

/-- The `display` string built by `display_word`. -/
def displayStr (animal : String) (guessed : List Char) : String :=
  animal.toList.foldl
    (fun acc c =>
      acc ++ (if c ∈ guessed then String.singleton c ++ " " else "_ ")) ""

/-- `display_word()`. -/
def display_word (animal : String) (guessed : List Char) : M Unit := do
  position_cursor 12 5
  connSend (encodeStr "Word: " ++ encodeStr (displayStr animal guessed))

/-- `display_guessed_letters()`: `" ".join(sorted(self.guessed_letters))`. -/
def display_guessed_letters (guessed : List Char) : M Unit := do
  position_cursor 14 5
  connSend (encodeStr "Guessed letters: " ++
    encodeStr (String.intercalate " "
      ((guessed.mergeSort (fun a b => a ≤ b)).map String.singleton)))

/-- `display_attempts()`. -/
def display_attempts (attempts_left : Nat) : M Unit := do
  position_cursor 16 5
  connSend (encodeStr ("Attempts left: " ++ toString attempts_left))

/-- The `while True` read loop of `get_input`: empty read raises
`ConnectionError`; the byte is uppercased and accepted only when
`b'A' <= char <= b'Z'`, in which case it is echoed with CRLF. -/
def getInputLoop : Nat → M Char
  | 0 => raiseExc .fuelOut
  | fuel + 1 => do
      let ch ← connRecv
      if ch = [] then raiseExc .connLost
      else
        let up := ch.map upperByte
        if bytesLe [65] up && bytesLe up [90] then do
          connSend (up ++ [13, 10])
          M.pure (Char.ofNat (up.headD 0))
        else getInputLoop fuel

/-- `get_input()`. -/
def get_input (fuel : Nat) : M Char := do
  position_cursor 18 5
  connSend (encodeStr "Enter a letter: ")
  getInputLoop fuel

/-- `all(letter in self.guessed_letters for letter in self.current_animal)`. -/
def allGuessed (animal : String) (guessed : List Char) : Prop :=
  ∀ c ∈ animal.toList, c ∈ guessed

instance (animal : String) (guessed : List Char) : Decidable (allGuessed animal guessed) :=
  inferInstanceAs (Decidable (∀ c ∈ animal.toList, c ∈ guessed))

/-- The state update one accepted guess performs on
`(guessed_letters, attempts_left)` (lines 242-248 of `play_round`). -/
def guessStep (animal : String) (st : List Char × Nat) (g : Char) :
    List Char × Nat :=
  if g ∈ st.1 then st
  else if g ∈ animal.toList then (g :: st.1, st.2)
  else (g :: st.1, st.2 - 1)

/-- The `while self.attempts_left > 0` loop of `play_round`.
Returns `some b` for an early `return b` (connection lost) and `none`
when control falls through to the replay prompt. -/
def round_loop (animal : String) : Nat → List Char → Nat → M (Option Bool)
  | 0, _, _ => raiseExc .fuelOut
  | fuel + 1, guessed, attempts_left =>
    if 0 < attempts_left then do
      clear_screen
      draw_hangman attempts_left attempts_left
      display_word animal guessed
      display_guessed_letters guessed
      display_attempts attempts_left
      if allGuessed animal guessed then do
        position_cursor 20 5
        connSend (encodeStr "Congratulations! You won!\r\n")
        M.pure none
      else do
        let og ← tryConn (Option.some <$> get_input fuel) (M.pure Option.none)
        match og with
        | none => M.pure (some false)
        | some guess =>
          if guess ∈ guessed then round_loop animal fuel guessed attempts_left
          else
            if guess ∈ animal.toList then
              round_loop animal fuel (guess :: guessed) attempts_left
            else
              if attempts_left - 1 = 0 then do
                clear_screen
                draw_hangman max_attempts 0
                position_cursor 20 5
                connSend (encodeStr ("Game Over! The word was: " ++ animal ++ "\r\n"))
                round_loop animal fuel (guess :: guessed) (attempts_left - 1)
              else round_loop animal fuel (guess :: guessed) (attempts_left - 1)
    else M.pure none

/-- The replay-prompt `while True` loop (lines 260-265):
`response = self.connection.receive(1).upper()`. -/
def replayLoop : Nat → M Bool
  | 0 => raiseExc .fuelOut
  | fuel + 1 => do
      let r ← connRecv
      let response := r.map upperByte
      if response = [89] then M.pure true
      else if response = [78] then M.pure false
      else replayLoop fuel

/-- `play_round()`; the randomly chosen `current_animal` is the `animal`
parameter. -/
def play_round (animal : String) (fuel : Nat) : M Bool := do
  clear_screen
  let r ← round_loop animal fuel [] max_attempts
  match r with
  | some b => M.pure b
  | none => do
      position_cursor 22 5
      connSend (encodeStr "Play again? (Y/N): ")
      tryConn (replayLoop fuel) (M.pure false)

/-- `welcome.split('\n')` from `run_game`. -/
def welcomeLines : List String :=
  ["",
   "            **** Guess the Animal Game ****",
   "            ",
   "            Try to guess the animal name one letter at a time.",
   "            You have 6 attempts before the game is over.",
   "            ",
   "            Starting in 3 seconds...",
   "            "]

/-- `for line in lines: self.connection.send(line.encode() + b'\r\n')`. -/
def sendLinesCRLF : List String → M Unit
  | [] => M.pure ()
  | line :: rest => do
      connSend (encodeStr line ++ [13, 10])
      sendLinesCRLF rest

/-- `while self.play_round(): pass`; `words k` is the animal chosen for
round `k`. -/
def gameLoop (words : Nat → String) (fuel : Nat) : Nat → Nat → M Unit
  | _, 0 => raiseExc .fuelOut
  | k, n + 1 => do
      let again ← play_round (words k) fuel
      if again then gameLoop words fuel (k + 1) n else M.pure ()

/-- `run_game()`: the whole body is inside `try ... except ConnectionError
... except Exception ... finally: self.connection.close()`. -/
def run_game (words : Nat → String) (fuel : Nat) : M Unit := do
  tryAll
    (do
      clear_screen
      sendLinesCRLF welcomeLines
      gameLoop words fuel 0 fuel
      clear_screen
      position_cursor 1 1
      connSend (encodeStr "Thanks for playing! Goodbye!\r\n"))
    (M.pure ())
  connClose

end VT52

namespace VT52

/-! ### `VT52Demo` (vt52-test-server.py)

`VT52Demo.position_cursor` is byte-for-byte the same code as
`AnimalGame.position_cursor`, so `position_cursor` is shared.  The
demo's `VT52Connection` base class has no `receive` at all. -/

/-- `b'A'` (CURSOR_UP). -/
def CURSOR_UP : Nat := 0x41

/-- `b'B'` (CURSOR_DOWN). -/
def CURSOR_DOWN : Nat := 0x42

/-- `b'C'` (CURSOR_RIGHT). -/
def CURSOR_RIGHT : Nat := 0x43

/-- `b'D'` (CURSOR_LEFT). -/
def CURSOR_LEFT : Nat := 0x44

/-- `b'I'` (REVERSE_LINEFEED). -/
def REVERSE_LINEFEED : Nat := 0x49

/-- `b'K'` (ERASE_TO_EOL). -/
def ERASE_TO_EOL : Nat := 0x4B

/-- A Python `for x in l:` loop of connection operations. -/
def forList : List α → (α → M Unit) → M Unit
  | [], _ => M.pure ()
  | x :: xs, f => do
      f x
      forList xs f

/-- `f"{n:02d}"`. -/
def pad2 (n : Nat) : String := if n < 10 then "0" ++ toString n else toString n

/-- `test_control_chars()`. -/
def test_control_chars : M Unit := do
  connSend [ESC, CURSOR_HOME]
  connSend [ESC, ERASE_SCREEN]
  position_cursor 1 1
  connSend (encodeStr "Control Characters Test:\r\n\n")
  connSend (encodeStr "Backspace Test: ")
  connSend (encodeStr "ABC")
  connSend [0x08]
  connSend [0x08]
  connSend (encodeStr "XY")
  connSend (encodeStr "\r\n")
  connSend (encodeStr "LF/CR Test:\r\n")
  connSend (encodeStr "First")
  connSend (encodeStr "\n")
  connSend (encodeStr "Second")
  connSend (encodeStr "\r")
  connSend (encodeStr "Third")
  connSend (encodeStr "\r\n\n")
  connSend (encodeStr "Tab Test:\r\n")
  connSend (encodeStr "1\t2\t3\t4")

/-- `positions = [(5,10), (5,30), (10,10), (10,30), (15,10), (15,30)]`. -/
def positionsList : List (Int × Int) :=
  [(5, 10), (5, 30), (10, 10), (10, 30), (15, 10), (15, 30)]

/-- `test_cursor_positioning()`. -/
def test_cursor_positioning : M Unit := do
  connSend [ESC, CURSOR_HOME]
  connSend [ESC, ERASE_SCREEN]
  position_cursor 1 1
  connSend (encodeStr "Cursor Positioning Test:\r\n\n")
  connSend (encodeStr "Testing absolute cursor positioning...\r\n")
  forList positionsList (fun yx => do
    position_cursor yx.1 yx.2
    connSend (encodeStr "X"))
  position_cursor 12 20
  connSend (encodeStr "O")
  forList (List.range 3) (fun _ => do
    connSend [ESC, CURSOR_UP]
    connSend (encodeStr "^"))
  forList (List.range 3) (fun _ => do
    connSend [ESC, CURSOR_RIGHT]
    connSend (encodeStr ">"))
  forList (List.range 3) (fun _ => do
    connSend [ESC, CURSOR_DOWN]
    connSend (encodeStr "v"))
  forList (List.range 3) (fun _ => do
    connSend [ESC, CURSOR_LEFT]
    connSend (encodeStr "<"))

/-- `test_erase_functions()`. -/
def test_erase_functions : M Unit := do
  connSend [ESC, CURSOR_HOME]
  connSend [ESC, ERASE_SCREEN]
  position_cursor 1 1
  connSend (encodeStr "Erase Functions Test:\r\n\n")
  forList (List.range' 5 15) (fun y => do
    position_cursor (y : Int) 1
    connSend (encodeStr ("Line " ++ pad2 y ++ ": Testing erase functions...")))
  connSend (encodeStr "\r\nTesting Erase to End of Line (ESC K):")
  position_cursor 10 20
  connSend [ESC, ERASE_TO_EOL]
  position_cursor 10 40
  connSend (encodeStr "<-- Erased to here")
  connSend (encodeStr "\r\nTesting Erase Screen (ESC J) - should home cursor:")
  position_cursor 15 20
  connSend [ESC, ERASE_SCREEN]
  connSend (encodeStr "This should be at home position (1,1)")

/-- `test_scroll_behavior()`. -/
def test_scroll_behavior : M Unit := do
  connSend [ESC, CURSOR_HOME]
  connSend [ESC, ERASE_SCREEN]
  position_cursor 1 1
  connSend (encodeStr "Scroll Behavior Test:\r\n\n")
  connSend [ESC, CURSOR_HOME]
  connSend [ESC, ERASE_SCREEN]
  forList (List.range' 1 22) (fun i => do
    position_cursor (i : Int) 1
    connSend (encodeStr ("Line " ++ pad2 i ++ ": test content")))
  connSend (encodeStr "\r\nTesting forward scroll...")
  connSend [ESC, CURSOR_HOME]
  connSend [ESC, ERASE_SCREEN]
  position_cursor 22 1
  forList (List.range 7) (fun i =>
    connSend (encodeStr ("New line " ++ toString i ++ " - testing scroll\r\n")))
  connSend [ESC, ERASE_SCREEN]
  connSend (encodeStr "Testing reverse scroll (ESC I):\r\n")
  position_cursor 10 1
  forList (List.range 5) (fun i => do
    connSend [ESC, REVERSE_LINEFEED]
    connSend (encodeStr ("Reverse scroll line " ++ toString (i + 1) ++ "\r")))

/-- `demo_cursor_movement()`. -/
def demo_cursor_movement : M Unit := do
  connSend [ESC, CURSOR_HOME]
  connSend [ESC, ERASE_SCREEN]
  position_cursor 1 1
  connSend (encodeStr "Box Drawing Demo:\r\n\n")
  position_cursor 5 10
  forList (List.range 10) (fun _ => connSend (encodeStr "*"))
  forList (List.range 5) (fun _ => do
    connSend [ESC, CURSOR_DOWN]
    connSend [ESC, CURSOR_LEFT]
    connSend (encodeStr "*"))
  forList (List.range 10) (fun _ => do
    connSend [ESC, CURSOR_LEFT]
    connSend [ESC, CURSOR_LEFT]
    connSend (encodeStr "*"))
  forList (List.range 5) (fun _ => do
    connSend [ESC, CURSOR_UP]
    connSend [ESC, CURSOR_LEFT]
    connSend (encodeStr "*"))

/-- `welcome.split('\n')` from `run_demo`. -/
def demoWelcomeLines : List String :=
  ["",
   "            **** VT52 Terminal Test Suite ****",
   "            ",
   "            Testing implemented features:",
   "            - Control characters (BS, LF, CR, TAB)",
   "            - Cursor positioning (abs/rel)",
   "            - Erase functions (EOL/screen)",
   "            - Hardware scroll behavior",
   "            - Box drawing",
   "            ",
   "            Starting in 3 seconds...",
   "            "]

/-- `summary.split('\n')` from `run_demo`. -/
def summaryLines : List String :=
  ["",
   "            Test Summary:",
   "            - Control Characters",
   "            - Cursor Positioning",
   "            - Erase Functions",
   "            - Hardware Scroll Operations",
   "            - Box Drawing",
   "            ",
   "            Tests complete! Connection will close in 5 seconds.",
   "            "]

/-- The `position_cursor(22, 1); send(b'\r3 seconds to continue...')`
block repeated between phases of `run_demo`. -/
def interlude : M Unit := do
  position_cursor 22 1
  connSend (encodeStr "\r3 seconds to continue...")

/-- `run_demo()`: welcome, the five phases in order, the summary; the
whole body in `try ... except ... finally: self.connection.close()`. -/
def run_demo : M Unit := do
  tryAll
    (do
      connSend [ESC, CURSOR_HOME]
      connSend [ESC, ERASE_SCREEN]
      sendLinesCRLF demoWelcomeLines
      test_control_chars
      interlude
      test_cursor_positioning
      interlude
      test_erase_functions
      interlude
      test_scroll_behavior
      interlude
      demo_cursor_movement
      interlude
      connSend [ESC, CURSOR_HOME]
      connSend [ESC, ERASE_SCREEN]
      position_cursor 1 1
      sendLinesCRLF summaryLines)
    (M.pure ())
  connClose

end VT52

namespace VT52

/-! ### Basic lemmas about the monad and helpers -/

theorem bind_eq (m : M α) (f : α → M β) : m >>= f = M.bind m f := rfl

theorem map_eq (m : M α) (f : α → β) :
    (f <$> m) = M.bind m (fun a => M.pure (f a)) := rfl

theorem M.bind_out (m : M α) (f : α → M β) (so : Nat → Bool) (sc : Nat)
    (r : List RecvRes) :
    M.bind m f so sc r =
      match (m so sc r).res with
      | .ok a =>
          ⟨(f a so (m so sc r).sc (m so sc r).rcv).res,
           (f a so (m so sc r).sc (m so sc r).rcv).sc,
           (f a so (m so sc r).sc (m so sc r).rcv).rcv,
           (m so sc r).tr ++ (f a so (m so sc r).sc (m so sc r).rcv).tr⟩
      | .error e => ⟨.error e, (m so sc r).sc, (m so sc r).rcv, (m so sc r).tr⟩ := rfl

theorem upperByte_of_upper (b : Nat) (h : b < 97) : upperByte b = b := by
  unfold upperByte
  rw [if_neg]
  omega

theorem bytesLe_single_le (x y : Nat) (h : x ≤ y) : bytesLe [x] [y] = true := by
  unfold bytesLe
  rcases lt_or_eq_of_le h with h1 | h1
  · rw [if_pos h1]
  · subst h1
    rw [if_neg (lt_irrefl x), if_neg (lt_irrefl x)]
    rfl

theorem charOfNat_toNat (n : Nat) (h : n < 256) : (Char.ofNat n).toNat = n := by
  have hv : n.isValidChar := Or.inl (by omega)
  simp [Char.ofNat, hv, Char.toNat, Char.ofNatAux, UInt32.toNat]

/-! ### C1 / C2: the absolute-position encoding -/

/-- C1: for every row in [1,24] and col in [1,80], `position_cursor`
encodes the position as exactly the four bytes
ESC 'Y' (row+31) (col+31). -/
theorem c1_position_encoding (row col : Int)
    (hr1 : 1 ≤ row) (hr2 : row ≤ 24) (hc1 : 1 ≤ col) (hc2 : col ≤ 80) :
    positionCursorBytes row col =
      some [0x1B, 0x59, (row + 31).toNat, (col + 31).toNat] := by
  have h1 : 0 ≤ row + 31 ∧ row + 31 < 256 := by omega
  have h2 : 0 ≤ col + 31 ∧ col + 31 < 256 := by omega
  simp [positionCursorBytes, byteOf, h1, h2, ESC, CURSOR_POS]

/-- Witness for C1 at (row, col) = (12, 40). -/
theorem c1_position_encoding_witness :
    positionCursorBytes 12 40 =
      some [0x1B, 0x59, ((12 : Int) + 31).toNat, ((40 : Int) + 31).toNat] :=
  c1_position_encoding 12 40 (by decide) (by decide) (by decide) (by decide)

/-- C2 counterexample: the position encoding is not total — at
(row, col) = (225, 1), `bytes([row + 31])` raises `ValueError`
(`bytes` values must be in `range(0, 256)`), so no wire command is
produced. -/
theorem c2_not_total_counterexample : positionCursorBytes 225 1 = none := by decide

/-- C2 amended: the encoding is deterministic and performs no clamping,
and it is total exactly for `row, col ∈ [-31, 224]` (i.e. whenever
`row + 31` and `col + 31` are bytes); outside that range the
`bytes([...])` constructor raises `ValueError` instead of producing a
wire command. -/
theorem c2_no_validation (row col : Int) :
    ((-31 ≤ row ∧ row ≤ 224 ∧ -31 ≤ col ∧ col ≤ 224) →
      positionCursorBytes row col =
        some [0x1B, 0x59, (row + 31).toNat, (col + 31).toNat]) ∧
    ((row < -31 ∨ 224 < row ∨ col < -31 ∨ 224 < col) →
      positionCursorBytes row col = none) := by
  constructor
  · intro h
    have h1 : 0 ≤ row + 31 ∧ row + 31 < 256 := by omega
    have h2 : 0 ≤ col + 31 ∧ col + 31 < 256 := by omega
    simp [positionCursorBytes, byteOf, h1, h2, ESC, CURSOR_POS]
  · intro h
    have hd : ¬(0 ≤ row + 31 ∧ row + 31 < 256) ∨ ¬(0 ≤ col + 31 ∧ col + 31 < 256) := by
      omega
    rcases hd with hb | hb
    · have hr : byteOf (row + 31) = none := by simp [byteOf, hb]
      unfold positionCursorBytes
      rw [hr]
    · have hc : byteOf (col + 31) = none := by simp [byteOf, hb]
      unfold positionCursorBytes
      rw [hc]
      rcases byteOf (row + 31) with _ | rb <;> rfl

/-- Witness for C2 (amended): in range the raw bytes come out, out of
range the encoder fails. -/
theorem c2_no_validation_witness :
    positionCursorBytes 100 100 =
      some [0x1B, 0x59, ((100 : Int) + 31).toNat, ((100 : Int) + 31).toNat] ∧
    positionCursorBytes 100 300 = none :=
  ⟨(c2_no_validation 100 100).1 (by decide), (c2_no_validation 100 300).2 (by decide)⟩

/-! ### C3: disconnection surfacing in `receive` -/

/-- C3 counterexample: the network transport does NOT surface every
peer disconnection as `ConnectionLost`: an orderly peer close makes
`TelnetConnection.receive` return an empty byte string with no error
(`socket.recv` returns `b''` and only `socket.error` is converted). -/
theorem c3_telnet_silent_close : telnetReceive NetEv.peerClosed = .ok [] := rfl

/-- C3 amended: the serial transport surfaces line failure as
`ConnectionLost` and never otherwise errors; the network transport
surfaces only `socket.error` as `ConnectionLost`, while an orderly peer
close is reported as a zero-byte success that callers must interpret —
which the game's `get_input` does, raising `ConnectionError` on an
empty read. -/
theorem c3_receive_disconnection :
    (∀ ev, serialReceive ev = .error () ↔ ev = SerEv.serError) ∧
    telnetReceive NetEv.sockError = .error () ∧
    telnetReceive NetEv.peerClosed = .ok [] ∧
    (∀ bs, telnetReceive (NetEv.dataArrived bs) = .ok bs) ∧
    (∀ fuel so sc r,
      (getInputLoop (fuel + 1) so sc (.bytes [] :: r)).res = .error .connLost) := by
  refine ⟨?_, rfl, rfl, fun bs => rfl, fun fuel so sc r => rfl⟩
  intro ev
  cases ev <;> simp [serialReceive, serialRead]

/-! ### C8: serial-open failure behaviour -/

/-- C8 counterexample: a serial-open failure is caught
(`except serial.SerialException`), a diagnostic is printed, and `main`
then returns normally — the process exit code is 0, not nonzero. -/
theorem c8_exit_code_counterexample :
    (run_serial_game (.serialError "could not open port COM9")).exitCode = 0 ∧
    (run_serial_game (.serialError "could not open port COM9")).diag =
      some "Serial port error: could not open port COM9" := ⟨rfl, rfl⟩

/-- C8 amended: on serial-open failure a diagnostic naming the error is
emitted and no session is started, but the process exits with code 0. -/
theorem c8_serial_open_failure (e : String) :
    (run_serial_game (.serialError e)).diag = some ("Serial port error: " ++ e) ∧
    (run_serial_game (.serialError e)).sessionStarted = false ∧
    (run_serial_game (.serialError e)).exitCode = 0 := ⟨rfl, rfl, rfl⟩

end VT52

namespace VT52

/-! ### C7: the replay prompt -/

/-- C7: at the replay prompt, exactly `'Y'`/`'y'` (89/121) starts a new
round (`play_round` returns `True`), exactly `'N'`/`'n'` (78/110)
returns `False` (the game loop then falls through to farewell and
close); any other byte — or an empty read — leaves the loop state
unchanged and re-enters the read loop; the loop exits abnormally only
on disconnection, which `play_round` converts to `False`. -/
theorem c7_replay_prompt (fuel sc : Nat) (so : Nat → Bool) (r : List RecvRes) (b : Nat) :
    ((b = 89 ∨ b = 121) →
      replayLoop (fuel + 1) so sc (.bytes [b] :: r) =
        ⟨.ok true, sc, r, [.recv (.bytes [b])]⟩) ∧
    ((b = 78 ∨ b = 110) →
      replayLoop (fuel + 1) so sc (.bytes [b] :: r) =
        ⟨.ok false, sc, r, [.recv (.bytes [b])]⟩) ∧
    (b ≠ 89 → b ≠ 121 → b ≠ 78 → b ≠ 110 →
      replayLoop (fuel + 1) so sc (.bytes [b] :: r) =
        ⟨(replayLoop fuel so sc r).res, (replayLoop fuel so sc r).sc,
         (replayLoop fuel so sc r).rcv,
         .recv (.bytes [b]) :: (replayLoop fuel so sc r).tr⟩) ∧
    (replayLoop (fuel + 1) so sc (.bytes [] :: r) =
      ⟨(replayLoop fuel so sc r).res, (replayLoop fuel so sc r).sc,
       (replayLoop fuel so sc r).rcv,
       .recv (.bytes []) :: (replayLoop fuel so sc r).tr⟩) ∧
    (replayLoop (fuel + 1) so sc (.lost :: r) =
      ⟨.error .connLost, sc, r, [.recv .lost]⟩) ∧
    (tryConn (replayLoop (fuel + 1)) (M.pure false) so sc (.lost :: r) =
      ⟨.ok false, sc, r, [.recv .lost]⟩) := by
  refine ⟨?_, ?_, ?_, ?_, rfl, rfl⟩
  · rintro (rfl | rfl) <;> rfl
  · rintro (rfl | rfl) <;> rfl
  · intro h89 h121 h78 h110
    have hY : ¬ ([b].map upperByte = [89]) := by
      simp only [List.map_cons, List.map_nil, List.cons.injEq, and_true]
      unfold upperByte
      split <;> omega
    have hN : ¬ ([b].map upperByte = [78]) := by
      simp only [List.map_cons, List.map_nil, List.cons.injEq, and_true]
      unfold upperByte
      split <;> omega
    rcases ho : replayLoop fuel so sc r with ⟨res, sc2, r2, tr2⟩
    simp only [replayLoop, bind_eq, M.bind, connRecv, List.take, if_neg hY, if_neg hN, ho,
      List.singleton_append]
  · rcases ho : replayLoop fuel so sc r with ⟨res, sc2, r2, tr2⟩
    have hY : ¬ (List.map upperByte [] = [89]) := by decide
    have hN : ¬ (List.map upperByte [] = [78]) := by decide
    simp only [replayLoop, bind_eq, M.bind, connRecv, List.take, if_neg hY, if_neg hN, ho,
      List.singleton_append]

/-- Witness for C7 at concrete bytes: `'y'` accepts, `'n'` declines,
`'?'` (63) re-loops, and a lost read yields `False` via the handler. -/
theorem c7_replay_prompt_witness :
    replayLoop 5 (fun _ => true) 0 [.bytes [121]] = ⟨.ok true, 0, [], [.recv (.bytes [121])]⟩ ∧
    replayLoop 5 (fun _ => true) 0 [.bytes [110]] = ⟨.ok false, 0, [], [.recv (.bytes [110])]⟩ ∧
    replayLoop 5 (fun _ => true) 0 [.bytes [63], .bytes [78]] =
      ⟨(replayLoop 4 (fun _ => true) 0 [.bytes [78]]).res,
       (replayLoop 4 (fun _ => true) 0 [.bytes [78]]).sc,
       (replayLoop 4 (fun _ => true) 0 [.bytes [78]]).rcv,
       .recv (.bytes [63]) :: (replayLoop 4 (fun _ => true) 0 [.bytes [78]]).tr⟩ ∧
    tryConn (replayLoop 5) (M.pure false) (fun _ => true) 0 [.lost] =
      ⟨.ok false, 0, [], [.recv .lost]⟩ :=
  ⟨(c7_replay_prompt 4 0 (fun _ => true) [] 121).1 (Or.inr rfl),
   (c7_replay_prompt 4 0 (fun _ => true) [] 110).2.1 (Or.inr rfl),
   (c7_replay_prompt 4 0 (fun _ => true) [.bytes [78]] 63).2.2.1
     (by decide) (by decide) (by decide) (by decide),
   (c7_replay_prompt 4 0 (fun _ => true) [] 78).2.2.2.2.2⟩

end VT52

namespace VT52

/-! ### C5: win condition, order independence -/

theorem guessStep_eq_of_mem (animal : String) (st : List Char × Nat) (g : Char)
    (h : g ∈ st.1) : guessStep animal st g = st := by
  unfold guessStep
  rw [if_pos h]

theorem guessStep_eq_of_correct (animal : String) (st : List Char × Nat) (g : Char)
    (h1 : g ∉ st.1) (h2 : g ∈ animal.toList) :
    guessStep animal st g = (g :: st.1, st.2) := by
  unfold guessStep
  rw [if_neg h1, if_pos h2]

theorem guessStep_eq_of_wrong (animal : String) (st : List Char × Nat) (g : Char)
    (h1 : g ∉ st.1) (h2 : g ∉ animal.toList) :
    guessStep animal st g = (g :: st.1, st.2 - 1) := by
  unfold guessStep
  rw [if_neg h1, if_neg h2]

theorem guessStep_attempts_of_correct (animal : String) (st : List Char × Nat)
    (g : Char) (h : g ∈ animal.toList) : (guessStep animal st g).2 = st.2 := by
  by_cases h1 : g ∈ st.1
  · rw [guessStep_eq_of_mem _ _ _ h1]
  · rw [guessStep_eq_of_correct _ _ _ h1 h]

theorem mem_guessStep (animal : String) (st : List Char × Nat) (g c : Char) :
    c ∈ (guessStep animal st g).1 ↔ c = g ∨ c ∈ st.1 := by
  by_cases h1 : g ∈ st.1
  · rw [guessStep_eq_of_mem _ _ _ h1]
    constructor
    · exact fun h => Or.inr h
    · rintro (rfl | h)
      · exact h1
      · exact h
  · by_cases h2 : g ∈ animal.toList
    · rw [guessStep_eq_of_correct _ _ _ h1 h2]
      exact List.mem_cons
    · rw [guessStep_eq_of_wrong _ _ _ h1 h2]
      exact List.mem_cons

theorem foldl_guessStep_attempts (animal : String) (gs : List Char) :
    ∀ st : List Char × Nat, (∀ g ∈ gs, g ∈ animal.toList) →
      (gs.foldl (guessStep animal) st).2 = st.2 := by
  induction gs with
  | nil => intro st _; rfl
  | cons g gs ih =>
      intro st h
      rw [List.foldl_cons, ih _ (fun x hx => h x (List.mem_cons_of_mem _ hx)),
        guessStep_attempts_of_correct _ _ _ (h g (List.mem_cons_self _ _))]

theorem mem_foldl_guessStep (animal : String) (gs : List Char) :
    ∀ (st : List Char × Nat) (c : Char),
      c ∈ (gs.foldl (guessStep animal) st).1 ↔ c ∈ gs ∨ c ∈ st.1 := by
  induction gs with
  | nil => simp
  | cons g gs ih =>
      intro st c
      rw [List.foldl_cons, ih, mem_guessStep]
      simp only [List.mem_cons]
      tauto

/-- C5: (i) once every letter of the target is in the guessed set the
win condition holds, whatever the guess sequence was; (ii) for target
"LION", any permutation of L,I,O,N produces a won round with all 6
attempts intact after the 4th unique correct guess; (iii) in the round
loop, a satisfied win condition (with attempts remaining) sends the
congratulations message and exits the loop normally (ROUND_WON → the
replay prompt), for any guessed set and any attempts 1..6. -/
theorem c5_win_any_order :
    (∀ (animal : String) (gs : List Char),
       (∀ c ∈ animal.toList, c ∈ gs) →
       allGuessed animal (gs.foldl (guessStep animal) ([], max_attempts)).1) ∧
    (∀ gs : List Char, gs.Perm ("LION".toList) →
       allGuessed "LION" (gs.foldl (guessStep "LION") ([], max_attempts)).1 ∧
       (gs.foldl (guessStep "LION") ([], max_attempts)).2 = max_attempts) ∧
    (∀ (animal : String) (gs : List Char) (a fuel sc : Nat) (so : Nat → Bool)
       (r : List RecvRes), (∀ k, so k = true) → 0 < a → a ≤ 6 →
       allGuessed animal gs →
       (round_loop animal (fuel + 1) gs a so sc r).res = .ok none ∧
       Action.send true (encodeStr "Congratulations! You won!\r\n") ∈
         (round_loop animal (fuel + 1) gs a so sc r).tr) := by
  refine ⟨?_, ?_, ?_⟩
  · intro animal gs h c hc
    rw [mem_foldl_guessStep]
    exact Or.inl (h c hc)
  · intro gs hp
    constructor
    · intro c hc
      rw [mem_foldl_guessStep]
      exact Or.inl (hp.mem_iff.2 hc)
    · exact foldl_guessStep_attempts _ _ _ (fun g hg => hp.mem_iff.1 hg)
  · intro animal gs a fuel sc so r hso ha ha6 hwin
    have hfun : so = fun _ => true := funext fun k => hso k
    subst hfun
    interval_cases a <;>
      simp [round_loop, clear_screen, draw_hangman, display_word,
        display_guessed_letters, display_attempts, position_cursor,
        positionCursorBytes, byteOf, sendArtLines, stages, pyIndex, connSend,
        M.bind, bind_eq, M.pure, hwin, max_attempts, ESC, CURSOR_POS,
        CURSOR_HOME, ERASE_SCREEN]

/-- Witness for C5: the permutation N,O,I,L of LION's letters wins with
6 attempts left, and the loop-level transition at a concrete state. -/
theorem c5_win_any_order_witness :
    (allGuessed "LION"
       ((['N', 'O', 'I', 'L'] : List Char).foldl (guessStep "LION") ([], max_attempts)).1 ∧
     ((['N', 'O', 'I', 'L'] : List Char).foldl (guessStep "LION") ([], max_attempts)).2 =
       max_attempts) ∧
    ((round_loop "LION" 1 ['L', 'I', 'O', 'N'] 6 (fun _ => true) 0 []).res = .ok none ∧
     Action.send true (encodeStr "Congratulations! You won!\r\n") ∈
       (round_loop "LION" 1 ['L', 'I', 'O', 'N'] 6 (fun _ => true) 0 []).tr) :=
  ⟨c5_win_any_order.2.1 ['N', 'O', 'I', 'L'] (by decide),
   c5_win_any_order.2.2 "LION" ['L', 'I', 'O', 'N'] 6 0 0 (fun _ => true) []
     (fun _ => rfl) (by decide) (by decide) (by decide)⟩

end VT52

namespace VT52

/-! ### C6: the attempts counter -/

/-- C6: attempts start each round at `max_attempts = 6` (`play_round`
resets the state to `([], max_attempts)`); an accepted fresh incorrect
guess decrements attempts by exactly 1, while a correct or repeated
guess leaves them unchanged; and when attempts reach 0 the loop sends
the Game Over message and exits to the replay prompt (ROUND_LOST). -/
theorem c6_attempts (animal : String) (st : List Char × Nat) (g : Char) :
    max_attempts = 6 ∧
    (g ∉ st.1 → g ∉ animal.toList → 0 < st.2 → (guessStep animal st g).2 + 1 = st.2) ∧
    (g ∈ animal.toList → (guessStep animal st g).2 = st.2) ∧
    (g ∈ st.1 → guessStep animal st g = st) ∧
    (∀ (gs : List Char) (fuel sc : Nat) (so : Nat → Bool) (r : List RecvRes) (b : Nat),
       (∀ k, so k = true) → 65 ≤ b → b ≤ 90 → ¬ allGuessed animal gs →
       Char.ofNat b ∉ gs → Char.ofNat b ∉ animal.toList →
       (round_loop animal (fuel + 2) gs 1 so sc (.bytes [b] :: r)).res = .ok none ∧
       Action.send true (encodeStr ("Game Over! The word was: " ++ animal ++ "\r\n")) ∈
         (round_loop animal (fuel + 2) gs 1 so sc (.bytes [b] :: r)).tr) := by
  refine ⟨rfl, ?_, guessStep_attempts_of_correct animal st g,
    guessStep_eq_of_mem animal st g, ?_⟩
  · intro h1 h2 hpos
    rw [guessStep_eq_of_wrong _ _ _ h1 h2]
    omega
  · intro gs fuel sc so r b hso hb1 hb2 hwin hfresh hwrong
    have hfun : so = fun _ => true := funext fun k => hso k
    subst hfun
    have hub : upperByte b = b := upperByte_of_upper b (by omega)
    have hle1 : bytesLe [65] [b] = true := bytesLe_single_le _ _ (by omega)
    have hle2 : bytesLe [b] [90] = true := bytesLe_single_le _ _ (by omega)
    have hwrong2 : Char.ofNat b ∉ animal.data := hwrong
    simp [round_loop, clear_screen, draw_hangman, display_word, display_guessed_letters,
      display_attempts, position_cursor, positionCursorBytes, byteOf, sendArtLines, stages,
      pyIndex, connSend, connRecv, M.bind, bind_eq, map_eq, M.pure, tryConn, get_input,
      getInputLoop, hub, hle1, hle2, hwin, hfresh, hwrong, hwrong2, max_attempts, ESC,
      CURSOR_POS, CURSOR_HOME, ERASE_SCREEN, raiseExc]

/-- Witness for C6: a fresh incorrect guess 'B' against "LION" at one
attempt left loses the round through the real loop, and the counter
algebra at a concrete state. -/
theorem c6_attempts_witness :
    ((guessStep "LION" (['A'], 3) 'B').2 + 1 = 3 ∧
     (guessStep "LION" (['A'], 3) 'I').2 = 3 ∧
     guessStep "LION" (['A'], 3) 'A' = (['A'], 3)) ∧
    ((round_loop "LION" 2 [] 1 (fun _ => true) 0 [.bytes [66]]).res = .ok none ∧
     Action.send true (encodeStr ("Game Over! The word was: " ++ "LION" ++ "\r\n")) ∈
       (round_loop "LION" 2 [] 1 (fun _ => true) 0 [.bytes [66]]).tr) :=
  ⟨⟨(c6_attempts "LION" (['A'], 3) 'B').2.1 (by decide) (by decide) (by decide),
    (c6_attempts "LION" (['A'], 3) 'I').2.2.1 (by decide),
    (c6_attempts "LION" (['A'], 3) 'A').2.2.2.1 (by decide)⟩,
   (c6_attempts "LION" ([], 0) 'A').2.2.2.2 [] 0 0 (fun _ => true) [] 66
     (fun _ => rfl) (by decide) (by decide) (by decide) (by decide) (by decide)⟩

end VT52

namespace VT52

/-! ### Trace predicates and composition lemmas (C4, C9, C10) -/

/-- All actions in the trace of `m` (run with send oracle `so`, from any
counter and receive oracle) satisfy `p`. -/
def trOnlyAt (so : Nat → Bool) (p : Action → Prop) (m : M α) : Prop :=
  ∀ sc r, ∀ a ∈ (m so sc r).tr, p a

theorem trOnlyAt_pure (so : Nat → Bool) (p : Action → Prop) (x : α) :
    trOnlyAt so p (M.pure x) := by
  intro sc r a ha
  simp [M.pure] at ha

theorem trOnlyAt_raise (so : Nat → Bool) (p : Action → Prop) (e : Exc) :
    trOnlyAt so p (raiseExc e : M α) := by
  intro sc r a ha
  simp [raiseExc] at ha

theorem trOnlyAt_connSend (so : Nat → Bool) (p : Action → Prop) (d : List Nat)
    (h : ∀ sc, p (.send (so sc) d)) : trOnlyAt so p (connSend d) := by
  intro sc r a ha
  simp [connSend] at ha
  subst ha
  exact h sc

theorem trOnlyAt_connRecv (so : Nat → Bool) (p : Action → Prop)
    (h : ∀ x, p (.recv x)) : trOnlyAt so p connRecv := by
  intro sc r a ha
  rcases r with _ | ⟨_ | _, rest⟩ <;> simp [connRecv] at ha <;> subst ha <;> apply h

theorem trOnlyAt_connClose (so : Nat → Bool) (p : Action → Prop)
    (h : p .close) : trOnlyAt so p connClose := by
  intro sc r a ha
  simp [connClose] at ha
  subst ha
  exact h

theorem trOnlyAt_bind (so : Nat → Bool) (p : Action → Prop) (m : M α) (f : α → M β)
    (h1 : trOnlyAt so p m) (h2 : ∀ a, trOnlyAt so p (f a)) :
    trOnlyAt so p (M.bind m f) := by
  intro sc r a ha
  simp only [M.bind] at ha
  rcases hres : (m so sc r).res with e | x <;> rw [hres] at ha
  · exact h1 sc r a ha
  · simp only [List.mem_append] at ha
    rcases ha with ha | ha
    · exact h1 sc r a ha
    · exact h2 x _ _ a ha

theorem trOnlyAt_tryConn (so : Nat → Bool) (p : Action → Prop) (m h : M α)
    (h1 : trOnlyAt so p m) (h2 : trOnlyAt so p h) :
    trOnlyAt so p (tryConn m h) := by
  intro sc r a ha
  simp only [tryConn] at ha
  rcases hres : (m so sc r).res with e | x <;> rw [hres] at ha
  · rcases e <;> simp only [List.mem_append] at ha
    · rcases ha with ha | ha
      · exact h1 sc r a ha
      · exact h2 _ _ a ha
    · exact h1 sc r a ha
    · exact h1 sc r a ha
  · exact h1 sc r a ha

theorem trOnlyAt_tryAll (so : Nat → Bool) (p : Action → Prop) (m h : M α)
    (h1 : trOnlyAt so p m) (h2 : trOnlyAt so p h) :
    trOnlyAt so p (tryAll m h) := by
  intro sc r a ha
  simp only [tryAll] at ha
  rcases hres : (m so sc r).res with e | x <;> rw [hres] at ha
  · simp only [List.mem_append] at ha
    rcases ha with ha | ha
    · exact h1 sc r a ha
    · exact h2 _ _ a ha
  · exact h1 sc r a ha

theorem trOnlyAt_forList (so : Nat → Bool) (p : Action → Prop) (l : List α)
    (f : α → M Unit) (h : ∀ x, trOnlyAt so p (f x)) :
    trOnlyAt so p (forList l f) := by
  induction l with
  | nil => exact trOnlyAt_pure so p ()
  | cons x xs ih => exact trOnlyAt_bind so p _ _ (h x) (fun _ => ih)

end VT52

namespace VT52

theorem trOnlyAt_ite (so : Nat → Bool) (p : Action → Prop) (c : Prop) [Decidable c]
    (m1 m2 : M α) (h1 : trOnlyAt so p m1) (h2 : trOnlyAt so p m2) :
    trOnlyAt so p (if c then m1 else m2) := by
  split <;> assumption

theorem trOnlyAt_position_cursor (so : Nat → Bool) (p : Action → Prop) (row col : Int)
    (hsend : ∀ sc d, p (.send (so sc) d)) : trOnlyAt so p (position_cursor row col) := by
  unfold position_cursor
  rcases hpc : positionCursorBytes row col with _ | d <;> simp only [hpc]
  · exact trOnlyAt_raise so p _
  · exact trOnlyAt_connSend so p _ (fun sc => hsend sc _)

theorem trOnlyAt_clear_screen (so : Nat → Bool) (p : Action → Prop)
    (hsend : ∀ sc d, p (.send (so sc) d)) : trOnlyAt so p clear_screen :=
  trOnlyAt_connSend so p _ (fun sc => hsend sc _)

theorem trOnlyAt_sendArtLines (so : Nat → Bool) (p : Action → Prop)
    (hsend : ∀ sc d, p (.send (so sc) d)) (art : List String) :
    ∀ i : Int, trOnlyAt so p (sendArtLines art i) := by
  induction art with
  | nil => exact fun i => trOnlyAt_pure so p ()
  | cons line rest ih =>
      intro i
      exact trOnlyAt_bind so p _ _ (trOnlyAt_position_cursor so p _ _ hsend)
        (fun _ => trOnlyAt_bind so p _ _
          (trOnlyAt_connSend so p _ (fun sc => hsend sc _)) (fun _ => ih _))

theorem trOnlyAt_draw_hangman (so : Nat → Bool) (p : Action → Prop)
    (hsend : ∀ sc d, p (.send (so sc) d)) (stage attempts_left : Nat) :
    trOnlyAt so p (draw_hangman stage attempts_left) := by
  unfold draw_hangman
  rcases hpi : pyIndex stages ((max_attempts : Int) - (attempts_left : Int)) with _ | art <;>
    simp only [hpi]
  · exact trOnlyAt_raise so p _
  · exact trOnlyAt_sendArtLines so p hsend art 0

theorem trOnlyAt_display_word (so : Nat → Bool) (p : Action → Prop)
    (hsend : ∀ sc d, p (.send (so sc) d)) (animal : String) (guessed : List Char) :
    trOnlyAt so p (display_word animal guessed) :=
  trOnlyAt_bind so p _ _ (trOnlyAt_position_cursor so p _ _ hsend)
    (fun _ => trOnlyAt_connSend so p _ (fun sc => hsend sc _))

theorem trOnlyAt_display_guessed_letters (so : Nat → Bool) (p : Action → Prop)
    (hsend : ∀ sc d, p (.send (so sc) d)) (guessed : List Char) :
    trOnlyAt so p (display_guessed_letters guessed) :=
  trOnlyAt_bind so p _ _ (trOnlyAt_position_cursor so p _ _ hsend)
    (fun _ => trOnlyAt_connSend so p _ (fun sc => hsend sc _))

theorem trOnlyAt_display_attempts (so : Nat → Bool) (p : Action → Prop)
    (hsend : ∀ sc d, p (.send (so sc) d)) (attempts_left : Nat) :
    trOnlyAt so p (display_attempts attempts_left) :=
  trOnlyAt_bind so p _ _ (trOnlyAt_position_cursor so p _ _ hsend)
    (fun _ => trOnlyAt_connSend so p _ (fun sc => hsend sc _))

theorem trOnlyAt_sendLinesCRLF (so : Nat → Bool) (p : Action → Prop)
    (hsend : ∀ sc d, p (.send (so sc) d)) (lines : List String) :
    trOnlyAt so p (sendLinesCRLF lines) := by
  induction lines with
  | nil => exact trOnlyAt_pure so p ()
  | cons line rest ih =>
      exact trOnlyAt_bind so p _ _ (trOnlyAt_connSend so p _ (fun sc => hsend sc _))
        (fun _ => ih)

theorem trOnlyAt_getInputLoop (so : Nat → Bool) (p : Action → Prop)
    (hsend : ∀ sc d, p (.send (so sc) d)) (hrecv : ∀ x, p (.recv x)) (fuel : Nat) :
    trOnlyAt so p (getInputLoop fuel) := by
  induction fuel with
  | zero => exact trOnlyAt_raise so p _
  | succ n ih =>
      refine trOnlyAt_bind so p _ _ (trOnlyAt_connRecv so p hrecv) (fun ch => ?_)
      refine trOnlyAt_ite so p _ _ _ (trOnlyAt_raise so p _) ?_
      refine trOnlyAt_ite so p _ _ _ ?_ ih
      exact trOnlyAt_bind so p _ _ (trOnlyAt_connSend so p _ (fun sc => hsend sc _))
        (fun _ => trOnlyAt_pure so p _)

theorem trOnlyAt_get_input (so : Nat → Bool) (p : Action → Prop)
    (hsend : ∀ sc d, p (.send (so sc) d)) (hrecv : ∀ x, p (.recv x)) (fuel : Nat) :
    trOnlyAt so p (get_input fuel) :=
  trOnlyAt_bind so p _ _ (trOnlyAt_position_cursor so p _ _ hsend)
    (fun _ => trOnlyAt_bind so p _ _ (trOnlyAt_connSend so p _ (fun sc => hsend sc _))
      (fun _ => trOnlyAt_getInputLoop so p hsend hrecv fuel))

theorem trOnlyAt_replayLoop (so : Nat → Bool) (p : Action → Prop)
    (hrecv : ∀ x, p (.recv x)) (fuel : Nat) :
    trOnlyAt so p (replayLoop fuel) := by
  induction fuel with
  | zero => exact trOnlyAt_raise so p _
  | succ n ih =>
      refine trOnlyAt_bind so p _ _ (trOnlyAt_connRecv so p hrecv) (fun ch => ?_)
      refine trOnlyAt_ite so p _ _ _ (trOnlyAt_pure so p _) ?_
      exact trOnlyAt_ite so p _ _ _ (trOnlyAt_pure so p _) ih

theorem trOnlyAt_round_loop (so : Nat → Bool) (p : Action → Prop)
    (hsend : ∀ sc d, p (.send (so sc) d)) (hrecv : ∀ x, p (.recv x))
    (animal : String) (fuel : Nat) :
    ∀ (gs : List Char) (a : Nat), trOnlyAt so p (round_loop animal fuel gs a) := by
  induction fuel with
  | zero => exact fun gs a => trOnlyAt_raise so p _
  | succ n ih =>
      intro gs a
      rw [round_loop]
      refine trOnlyAt_ite so p _ _ _ ?_ (trOnlyAt_pure so p _)
      refine trOnlyAt_bind so p _ _ (trOnlyAt_clear_screen so p hsend) (fun _ => ?_)
      refine trOnlyAt_bind so p _ _ (trOnlyAt_draw_hangman so p hsend _ _) (fun _ => ?_)
      refine trOnlyAt_bind so p _ _ (trOnlyAt_display_word so p hsend _ _) (fun _ => ?_)
      refine trOnlyAt_bind so p _ _ (trOnlyAt_display_guessed_letters so p hsend _) (fun _ => ?_)
      refine trOnlyAt_bind so p _ _ (trOnlyAt_display_attempts so p hsend _) (fun _ => ?_)
      refine trOnlyAt_ite so p _ _ _ ?_ ?_
      · refine trOnlyAt_bind so p _ _ (trOnlyAt_position_cursor so p _ _ hsend) (fun _ => ?_)
        exact trOnlyAt_bind so p _ _ (trOnlyAt_connSend so p _ (fun sc => hsend sc _))
          (fun _ => trOnlyAt_pure so p _)
      · refine trOnlyAt_bind so p _ _ ?_ (fun og => ?_)
        · refine trOnlyAt_tryConn so p _ _ ?_ (trOnlyAt_pure so p _)
          rw [map_eq]
          exact trOnlyAt_bind so p _ _ (trOnlyAt_get_input so p hsend hrecv _)
            (fun g => trOnlyAt_pure so p _)
        · rcases og with _ | guess
          · exact trOnlyAt_pure so p _
          · refine trOnlyAt_ite so p _ _ _ (ih _ _) ?_
            refine trOnlyAt_ite so p _ _ _ (ih _ _) ?_
            refine trOnlyAt_ite so p _ _ _ ?_ (ih _ _)
            refine trOnlyAt_bind so p _ _ (trOnlyAt_clear_screen so p hsend) (fun _ => ?_)
            refine trOnlyAt_bind so p _ _ (trOnlyAt_draw_hangman so p hsend _ _) (fun _ => ?_)
            refine trOnlyAt_bind so p _ _ (trOnlyAt_position_cursor so p _ _ hsend) (fun _ => ?_)
            exact trOnlyAt_bind so p _ _ (trOnlyAt_connSend so p _ (fun sc => hsend sc _))
              (fun _ => ih _ _)

theorem trOnlyAt_play_round (so : Nat → Bool) (p : Action → Prop)
    (hsend : ∀ sc d, p (.send (so sc) d)) (hrecv : ∀ x, p (.recv x))
    (animal : String) (fuel : Nat) :
    trOnlyAt so p (play_round animal fuel) := by
  unfold play_round
  refine trOnlyAt_bind so p _ _ (trOnlyAt_clear_screen so p hsend) (fun _ => ?_)
  refine trOnlyAt_bind so p _ _ (trOnlyAt_round_loop so p hsend hrecv animal fuel _ _)
    (fun res => ?_)
  rcases res with _ | b
  · refine trOnlyAt_bind so p _ _ (trOnlyAt_position_cursor so p _ _ hsend) (fun _ => ?_)
    refine trOnlyAt_bind so p _ _ (trOnlyAt_connSend so p _ (fun sc => hsend sc _))
      (fun _ => ?_)
    exact trOnlyAt_tryConn so p _ _ (trOnlyAt_replayLoop so p hrecv fuel)
      (trOnlyAt_pure so p _)
  · exact trOnlyAt_pure so p _

theorem trOnlyAt_gameLoop (so : Nat → Bool) (p : Action → Prop)
    (hsend : ∀ sc d, p (.send (so sc) d)) (hrecv : ∀ x, p (.recv x))
    (words : Nat → String) (fuel : Nat) :
    ∀ (k n : Nat), trOnlyAt so p (gameLoop words fuel k n) := by
  intro k n
  induction n generalizing k with
  | zero => exact trOnlyAt_raise so p _
  | succ n ih =>
      rw [gameLoop]
      refine trOnlyAt_bind so p _ _ (trOnlyAt_play_round so p hsend hrecv _ _)
        (fun again => ?_)
      exact trOnlyAt_ite so p _ _ _ (ih _) (trOnlyAt_pure so p _)

end VT52

namespace VT52

/-! ### C4: session teardown -/

theorem tryAll_pure_unit_res (m : M Unit) (so : Nat → Bool) (sc : Nat) (r : List RecvRes) :
    (tryAll m (M.pure ()) so sc r).res = .ok () := by
  simp only [tryAll]
  rcases hres : (m so sc r).res with e | x
  · rfl
  · show (m so sc r).res = .ok ()
    rw [hres]

/-- The trace of a whole `run_game` run is a close-free body trace
followed by exactly the one `close` recorded by the `finally` block. -/
theorem run_game_tr_decomp (words : Nat → String) (fuel : Nat) (so : Nat → Bool)
    (sc : Nat) (r : List RecvRes) :
    ∃ t, (run_game words fuel so sc r).tr = t ++ [.close] ∧
      (∀ a ∈ t, a ≠ Action.close) := by
  have hsend : ∀ (sc : Nat) (d : List Nat), (Action.send (so sc) d) ≠ Action.close := by
    intro _ _ h
    cases h
  have hrecv : ∀ x, (Action.recv x) ≠ Action.close := by
    intro _ h
    cases h
  have hbody : trOnlyAt so (· ≠ Action.close)
      (tryAll
        (M.bind clear_screen (fun _ =>
          M.bind (sendLinesCRLF welcomeLines) (fun _ =>
            M.bind (gameLoop words fuel 0 fuel) (fun _ =>
              M.bind clear_screen (fun _ =>
                M.bind (position_cursor 1 1) (fun _ =>
                  connSend (encodeStr "Thanks for playing! Goodbye!\r\n")))))))
        (M.pure ())) := by
    refine trOnlyAt_tryAll so _ _ _ ?_ (trOnlyAt_pure so _ _)
    refine trOnlyAt_bind so _ _ _ (trOnlyAt_clear_screen so _ hsend) (fun _ => ?_)
    refine trOnlyAt_bind so _ _ _ (trOnlyAt_sendLinesCRLF so _ hsend _) (fun _ => ?_)
    refine trOnlyAt_bind so _ _ _ (trOnlyAt_gameLoop so _ hsend hrecv words fuel 0 fuel)
      (fun _ => ?_)
    refine trOnlyAt_bind so _ _ _ (trOnlyAt_clear_screen so _ hsend) (fun _ => ?_)
    refine trOnlyAt_bind so _ _ _ (trOnlyAt_position_cursor so _ _ _ hsend) (fun _ => ?_)
    exact trOnlyAt_connSend so _ _ (fun sc => hsend sc _)
  refine ⟨_, ?_, hbody sc r⟩
  show (M.bind _ (fun _ => connClose) so sc r).tr = _
  simp only [M.bind, tryAll_pure_unit_res]
  rfl

/-- C4 parts about closing: for every send-failure oracle, receive
oracle and fuel, the `run_game` trace records exactly one `close`, and
it is the final connection operation; `SerialConnection.close` is
idempotent and leaves the port closed. -/
theorem c4_close_exactly_once :
    (∀ (words : Nat → String) (fuel : Nat) (so : Nat → Bool) (sc : Nat) (r : List RecvRes),
       ((run_game words fuel so sc r).tr.count .close = 1 ∧
        (run_game words fuel so sc r).tr.getLast? = some .close)) ∧
    (∀ s : SerialPort,
       serialCloseOp (serialCloseOp s) = serialCloseOp s ∧
       (serialCloseOp s).is_open = false) := by
  constructor
  · intro words fuel so sc r
    obtain ⟨t, htr, hnc⟩ := run_game_tr_decomp words fuel so sc r
    rw [htr]
    constructor
    · rw [List.count_append]
      have h0 : t.count Action.close = 0 := by
        rw [List.count_eq_zero]
        intro hmem
        exact hnc _ hmem rfl
      rw [h0]
      rfl
    · exact List.getLast?_concat t
  · intro s
    constructor
    · unfold serialCloseOp
      rcases s with ⟨b⟩
      cases b <;> simp
    · unfold serialCloseOp
      rcases s with ⟨b⟩
      cases b <;> simp

end VT52

namespace VT52

/-! ### C4: no replay prompt after a lost connection -/

/-- The good send oracle: every send succeeds. -/
def soOk : Nat → Bool := fun _ => true

/-- An action that observes the transport failing (a failed send or a
receive that raised `ConnectionError`). -/
def lostAct : Action → Prop
  | .send k _ => k = false
  | .recv res => res = .lost
  | .close => False

instance : DecidablePred lostAct := fun a => by
  cases a <;> unfold lostAct <;> infer_instance

/-- The replay-prompt payload `b"Play again? (Y/N): "`. -/
def promptB : List Nat := encodeStr "Play again? (Y/N): "

/-- A send of the replay prompt. -/
def promptAct : Action → Prop
  | .send _ d => d = promptB
  | _ => False

instance : DecidablePred promptAct := fun a => by
  cases a <;> unfold promptAct <;> infer_instance

def lostFree (tr : List Action) : Prop := ∀ a ∈ tr, ¬ lostAct a

def promptFree (tr : List Action) : Prop := ∀ a ∈ tr, ¬ promptAct a

/-- After any transport-loss action in the trace, the replay prompt is
never sent again. -/
def noPromptAfterLost (tr : List Action) : Prop :=
  ∀ t1 t2, tr = t1 ++ t2 → (∃ a ∈ t1, lostAct a) → promptFree t2

theorem lostFree_append (t1 t2 : List Action) (h1 : lostFree t1) (h2 : lostFree t2) :
    lostFree (t1 ++ t2) := by
  intro a ha
  rcases List.mem_append.1 ha with h | h
  · exact h1 a h
  · exact h2 a h

theorem noPromptAfterLost_of_split (tr u v : List Action) (h : tr = u ++ v)
    (hu : lostFree u) (hv : promptFree v) : noPromptAfterLost tr := by
  intro t1 t2 heq hlost
  rcases List.append_eq_append_iff.1 (heq ▸ h) with ⟨w, hw1, hw2⟩ | ⟨w, hw1, hw2⟩
  · -- u = t1 ++ w : the loss would be inside the lost-free prefix
    exfalso
    obtain ⟨a, ha, hla⟩ := hlost
    exact hu a (hw1 ▸ List.mem_append_left w ha) hla
  · -- t2 is a suffix of v
    intro a ha
    exact hv a (hw2 ▸ List.mem_append_right w ha)

/-- The trace ends with the one `ConnectionError`-raising receive. -/
def lostLastShape (tr : List Action) : Prop :=
  ∃ t, tr = t ++ [.recv .lost] ∧ lostFree t

/-- Runs of `m` with all sends succeeding either have a loss-free trace,
or raised/absorbed a receive-loss as the very last recorded action, with
the result satisfying `P`. -/
def LS (m : M α) (P : Except Exc α → Prop) : Prop :=
  ∀ sc r, lostFree (m soOk sc r).tr ∨
    (P (m soOk sc r).res ∧ lostLastShape (m soOk sc r).tr)

theorem LS_of_lostFree (m : M α) (P : Except Exc α → Prop)
    (h : ∀ sc r, lostFree (m soOk sc r).tr) : LS m P :=
  fun sc r => Or.inl (h sc r)

theorem LS_of_trOnlyAt (m : M α) (P : Except Exc α → Prop)
    (h : trOnlyAt soOk (fun a => ¬ lostAct a) m) : LS m P :=
  LS_of_lostFree m P (fun sc r => h sc r)

theorem LS_mono (m : M α) (P Q : Except Exc α → Prop)
    (h : LS m P) (hpq : ∀ res, P res → Q res) : LS m Q := by
  intro sc r
  rcases h sc r with hf | ⟨hP, hs⟩
  · exact Or.inl hf
  · exact Or.inr ⟨hpq _ hP, hs⟩

theorem LS_bind (m : M α) (f : α → M β) (P : Except Exc α → Prop)
    (Q : Except Exc β → Prop)
    (hm : LS m P) (hf : ∀ a, LS (f a) Q)
    (hkeep : ∀ a, P (.ok a) → ∀ sc r, (f a soOk sc r).tr = [] ∧ Q ((f a soOk sc r).res))
    (herr : ∀ e, P (.error e) → Q (.error e)) :
    LS (M.bind m f) Q := by
  intro sc r
  simp only [M.bind]
  rcases hres : (m soOk sc r).res with e | a
  · -- the bind stops with m's outcome
    rcases hm sc r with hfree | ⟨hP, hs⟩
    · exact Or.inl hfree
    · exact Or.inr ⟨herr e (hres ▸ hP), hs⟩
  · dsimp only
    rcases hm sc r with hfree | ⟨hP, hs⟩
    · rcases hf a ((m soOk sc r).sc) ((m soOk sc r).rcv) with hfree2 | ⟨hQ, t, hts, htfree⟩
      · exact Or.inl (lostFree_append _ _ hfree hfree2)
      · refine Or.inr ⟨hQ, (m soOk sc r).tr ++ t, ?_, lostFree_append _ _ hfree htfree⟩
        rw [hts, List.append_assoc]
    · -- m ended in a loss absorbed by a handler; the continuation is silent
      obtain ⟨htr0, hQ⟩ := hkeep a (hres ▸ hP) ((m soOk sc r).sc) ((m soOk sc r).rcv)
      refine Or.inr ⟨hQ, ?_⟩
      rw [htr0, List.append_nil]
      exact hs

theorem LS_tryConn_pure (m : M α) (x : α) (P : Except Exc α → Prop)
    (hm : LS m P) (hP : ∀ res, P res → res = .error .connLost) :
    LS (tryConn m (M.pure x)) (fun res => res = .ok x) := by
  intro sc r
  simp only [tryConn]
  rcases hres : (m soOk sc r).res with e | a
  · rcases e with _ | _ | _
    · -- ConnectionError: caught, handler returns x silently
      rcases hm sc r with hfree | ⟨hPr, hs⟩
      · refine Or.inl ?_
        simpa [M.pure] using hfree
      · refine Or.inr ⟨rfl, ?_⟩
        simpa [M.pure] using hs
    · -- other exceptions pass through untouched
      rcases hm sc r with hfree | ⟨hPr, hs⟩
      · exact Or.inl hfree
      · exact absurd (hP _ hPr) (by simp [hres])
    · rcases hm sc r with hfree | ⟨hPr, hs⟩
      · exact Or.inl hfree
      · exact absurd (hP _ hPr) (by simp [hres])
  · rcases hm sc r with hfree | ⟨hPr, hs⟩
    · exact Or.inl hfree
    · exact absurd (hP _ hPr) (by simp [hres])

end VT52


namespace VT52

theorem lostAct_send_soOk (sc : Nat) (d : List Nat) :
    ¬ lostAct (.send (soOk sc) d) := by
  simp [lostAct, soOk]

theorem lostFree_clear_screen (sc : Nat) (r : List RecvRes) :
    lostFree (clear_screen soOk sc r).tr :=
  trOnlyAt_clear_screen soOk _ lostAct_send_soOk sc r

theorem LS_bind_front {A B : Type} (m : M A) (f : A -> M B) (Q : Except Exc B -> Prop)
    (h : forall sc r, lostFree (m soOk sc r).tr) (hf : forall a, LS (f a) Q) :
    LS (M.bind m f) Q :=
  LS_bind m f (fun _ => False) Q (LS_of_lostFree m _ h) hf
    (fun _ hP => hP.elim) (fun _ hP => hP.elim)

theorem LS_replayLoop (fuel : Nat) :
    LS (replayLoop fuel) (fun res => res = .error .connLost) := by
  induction fuel with
  | zero =>
      refine LS_of_lostFree _ _ (fun sc r => ?_)
      intro a ha
      simp [replayLoop, raiseExc] at ha
  | succ n ih =>
      intro sc r
      rcases r with _ | ⟨bs | _, rest⟩
      · exact Or.inr ⟨rfl, [], rfl, fun a ha => by simp at ha⟩
      · by_cases hY : List.map upperByte (List.take 1 bs) = [89]
        · have hout : replayLoop (n + 1) soOk sc (.bytes bs :: rest) =
              ⟨.ok true, sc, rest, [.recv (.bytes bs)]⟩ := by
            simp only [replayLoop, bind_eq, M.bind, connRecv, if_pos hY, M.pure, List.append_nil]
          rw [hout]
          exact Or.inl (fun a ha => by
            rcases List.mem_singleton.1 ha with rfl
            simp [lostAct])
        · by_cases hN : List.map upperByte (List.take 1 bs) = [78]
          · have hout : replayLoop (n + 1) soOk sc (.bytes bs :: rest) =
                ⟨.ok false, sc, rest, [.recv (.bytes bs)]⟩ := by
              simp only [replayLoop, bind_eq, M.bind, connRecv, if_neg hY, if_pos hN, M.pure, List.append_nil]
            rw [hout]
            exact Or.inl (fun a ha => by
              rcases List.mem_singleton.1 ha with rfl
              simp [lostAct])
          · rcases ho : replayLoop n soOk sc rest with ⟨res2, sc2, r2, tr2⟩
            have hout : replayLoop (n + 1) soOk sc (.bytes bs :: rest) =
                ⟨res2, sc2, r2, .recv (.bytes bs) :: tr2⟩ := by
              simp only [replayLoop, bind_eq, M.bind, connRecv, if_neg hY, if_neg hN, ho,
                List.singleton_append]
            have hrec := ih sc rest
            rw [ho] at hrec
            rw [hout]
            rcases hrec with hfree | ⟨hres, t, hts, htfree⟩
            · refine Or.inl (fun a ha => ?_)
              rcases List.mem_cons.1 ha with rfl | ha
              · simp [lostAct]
              · exact hfree a ha
            · have hts2 : tr2 = t ++ [Action.recv RecvRes.lost] := hts
              refine Or.inr ⟨hres, .recv (.bytes bs) :: t, ?_, ?_⟩
              · rw [hts2, List.cons_append]
              · intro a ha
                rcases List.mem_cons.1 ha with rfl | ha
                · simp [lostAct]
                · exact htfree a ha
      · exact Or.inr ⟨rfl, [], rfl, fun a ha => by simp at ha⟩

theorem LS_getInputLoop (fuel : Nat) :
    LS (getInputLoop fuel) (fun res => res = .error .connLost) := by
  induction fuel with
  | zero =>
      refine LS_of_lostFree _ _ (fun sc r => ?_)
      intro a ha
      simp [getInputLoop, raiseExc] at ha
  | succ n ih =>
      intro sc r
      rcases r with _ | ⟨bs | _, rest⟩
      · exact Or.inr ⟨rfl, [], rfl, fun a ha => by simp at ha⟩
      · rcases bs with _ | ⟨b, bs'⟩
        · have hout : getInputLoop (n + 1) soOk sc (.bytes [] :: rest) =
              ⟨.error .connLost, sc, rest, [.recv (.bytes [])]⟩ := by
            simp only [getInputLoop, bind_eq, M.bind, connRecv, List.take, raiseExc,
              List.append_nil, if_true, eq_self_iff_true]
          rw [hout]
          exact Or.inl (fun a ha => by
            rcases List.mem_singleton.1 ha with rfl
            simp [lostAct])
        · have hne : ¬ (([b] : List Nat) = []) := by simp
          by_cases hc : (bytesLe [65] [upperByte b] && bytesLe [upperByte b] [90]) = true
          · have hout : getInputLoop (n + 1) soOk sc (.bytes (b :: bs') :: rest) =
                ⟨.ok (Char.ofNat ([upperByte b].headD 0)), sc + 1, rest,
                 [.recv (.bytes (b :: bs')), .send (soOk sc) [upperByte b, 13, 10]]⟩ := by
              simp only [getInputLoop, bind_eq, M.bind, connRecv, List.take, List.map,
                if_neg hne, if_pos hc, connSend, M.pure, List.append_nil, soOk, if_true,
                List.cons_append, List.nil_append, List.singleton_append]
            rw [hout]
            refine Or.inl (fun a ha => ?_)
            rcases List.mem_cons.1 ha with rfl | ha
            · simp [lostAct]
            · rcases List.mem_singleton.1 ha with rfl
              exact lostAct_send_soOk sc _
          · rcases ho : getInputLoop n soOk sc rest with ⟨res2, sc2, r2, tr2⟩
            have hout : getInputLoop (n + 1) soOk sc (.bytes (b :: bs') :: rest) =
                ⟨res2, sc2, r2, .recv (.bytes (b :: bs')) :: tr2⟩ := by
              simp only [getInputLoop, bind_eq, M.bind, connRecv, List.take, List.map,
                if_neg hne, if_neg hc, ho, List.singleton_append]
            have hrec := ih sc rest
            rw [ho] at hrec
            rw [hout]
            rcases hrec with hfree | ⟨hres, t, hts, htfree⟩
            · refine Or.inl (fun a ha => ?_)
              rcases List.mem_cons.1 ha with rfl | ha
              · simp [lostAct]
              · exact hfree a ha
            · have hts2 : tr2 = t ++ [Action.recv RecvRes.lost] := hts
              refine Or.inr ⟨hres, .recv (.bytes (b :: bs')) :: t, ?_, ?_⟩
              · rw [hts2, List.cons_append]
              · intro a ha
                rcases List.mem_cons.1 ha with rfl | ha
                · simp [lostAct]
                · exact htfree a ha
      · exact Or.inr ⟨rfl, [], rfl, fun a ha => by simp at ha⟩


theorem LS_get_input (fuel : Nat) :
    LS (get_input fuel) (fun res => res = .error .connLost) := by
  unfold get_input
  refine LS_bind_front _ _ _
    (fun sc r => trOnlyAt_position_cursor soOk _ 18 5 lostAct_send_soOk sc r) (fun _ => ?_)
  refine LS_bind_front _ _ _
    (fun sc r => trOnlyAt_connSend soOk _ _ (fun sc => lostAct_send_soOk sc _) sc r)
    (fun _ => ?_)
  exact LS_getInputLoop fuel

theorem LS_input_chain (fuel : Nat) :
    LS (tryConn (Option.some <$> get_input fuel) (M.pure Option.none))
      (fun res => res = .ok Option.none) := by
  have hchain : LS (M.bind (get_input fuel) (fun g => M.pure (Option.some g)))
      (fun res => res = .error .connLost) := by
    refine LS_bind _ _ _ _ (LS_get_input fuel)
      (fun g => LS_of_lostFree _ _ (fun sc r a ha => by simp [M.pure] at ha)) ?_ ?_
    · intro a hP
      simp at hP
    · intro e hP
      simp at hP
      subst hP
      rfl
  exact LS_tryConn_pure _ _ _ hchain (fun res h => h)

theorem LS_round_loop (animal : String) (fuel : Nat) :
    ∀ (gs : List Char) (a : Nat),
      LS (round_loop animal fuel gs a)
        (fun res => res = .error .connLost ∨ res = .ok (some false)) := by
  induction fuel with
  | zero =>
      intro gs a
      refine LS_of_lostFree _ _ (fun sc r => ?_)
      intro x hx
      simp [round_loop, raiseExc] at hx
  | succ n ih =>
      intro gs a
      rw [round_loop]
      by_cases ha : 0 < a
      · rw [if_pos ha]
        refine LS_bind_front _ _ _ (fun sc r => lostFree_clear_screen sc r) (fun _ => ?_)
        refine LS_bind_front _ _ _
          (fun sc r => trOnlyAt_draw_hangman soOk _ lostAct_send_soOk _ _ sc r) (fun _ => ?_)
        refine LS_bind_front _ _ _
          (fun sc r => trOnlyAt_display_word soOk _ lostAct_send_soOk _ _ sc r) (fun _ => ?_)
        refine LS_bind_front _ _ _
          (fun sc r => trOnlyAt_display_guessed_letters soOk _ lostAct_send_soOk _ sc r)
          (fun _ => ?_)
        refine LS_bind_front _ _ _
          (fun sc r => trOnlyAt_display_attempts soOk _ lostAct_send_soOk _ sc r)
          (fun _ => ?_)
        by_cases hwin : allGuessed animal gs
        · rw [if_pos hwin]
          refine LS_of_lostFree _ _ (fun sc r => ?_)
          exact trOnlyAt_bind soOk _ _ _
            (trOnlyAt_position_cursor soOk _ _ _ lostAct_send_soOk)
            (fun _ => trOnlyAt_bind soOk _ _ _
              (trOnlyAt_connSend soOk _ _ (fun sc => lostAct_send_soOk sc _))
              (fun _ => trOnlyAt_pure soOk _ _)) sc r
        · rw [if_neg hwin]
          refine LS_bind _ _ _ _ (LS_input_chain n) (fun og => ?_) ?_ ?_
          · rcases og with _ | guess
            · exact LS_of_lostFree _ _ (fun sc r x hx => by simp [M.pure] at hx)
            · dsimp only
              by_cases h1 : guess ∈ gs
              · rw [if_pos h1]
                exact ih gs a
              · rw [if_neg h1]
                by_cases h2 : guess ∈ animal.toList
                · rw [if_pos h2]
                  exact ih _ _
                · rw [if_neg h2]
                  by_cases h3 : a - 1 = 0
                  · rw [if_pos h3]
                    refine LS_bind_front _ _ _ (fun sc r => lostFree_clear_screen sc r)
                      (fun _ => ?_)
                    refine LS_bind_front _ _ _
                      (fun sc r => trOnlyAt_draw_hangman soOk _ lostAct_send_soOk _ _ sc r)
                      (fun _ => ?_)
                    refine LS_bind_front _ _ _
                      (fun sc r => trOnlyAt_position_cursor soOk _ _ _ lostAct_send_soOk sc r)
                      (fun _ => ?_)
                    refine LS_bind_front _ _ _
                      (fun sc r => trOnlyAt_connSend soOk _ _
                        (fun sc => lostAct_send_soOk sc _) sc r)
                      (fun _ => ?_)
                    exact ih _ _
                  · rw [if_neg h3]
                    exact ih _ _
          · intro og hP sc r
            have hog : og = Option.none := by simpa using hP
            subst hog
            exact ⟨rfl, Or.inr rfl⟩
          · intro e hP
            simp at hP
      · rw [if_neg ha]
        exact LS_of_lostFree _ _ (fun sc r x hx => by simp [M.pure] at hx)

theorem LS_play_round (animal : String) (fuel : Nat) :
    LS (play_round animal fuel)
      (fun res => res = .error .connLost ∨ res = .ok false) := by
  unfold play_round
  refine LS_bind_front _ _ _ (fun sc r => lostFree_clear_screen sc r) (fun _ => ?_)
  refine LS_bind _ _ _ _ (LS_round_loop animal fuel [] max_attempts) (fun ores => ?_) ?_ ?_
  · rcases ores with _ | b
    · refine LS_bind_front _ _ _
        (fun sc r => trOnlyAt_position_cursor soOk _ _ _ lostAct_send_soOk sc r) (fun _ => ?_)
      refine LS_bind_front _ _ _
        (fun sc r => trOnlyAt_connSend soOk _ _ (fun sc => lostAct_send_soOk sc _) sc r)
        (fun _ => ?_)
      refine LS_mono _ _ _
        (LS_tryConn_pure (replayLoop fuel) false _ (LS_replayLoop fuel) (fun res h => h)) ?_
      intro res h
      exact Or.inr h
    · exact LS_of_lostFree _ _ (fun sc r x hx => by simp [M.pure] at hx)
  · intro a hP sc r
    rcases hP with hP | hP
    · simp at hP
    · have ha : a = some false := by simpa using hP
      subst ha
      exact ⟨rfl, Or.inr rfl⟩
  · intro e hP
    rcases hP with hP | hP
    · have he : e = .connLost := by simpa using hP
      subst he
      exact Or.inl rfl
    · simp at hP

theorem LS_gameLoop (words : Nat → String) (fuel : Nat) :
    ∀ (k n : Nat), LS (gameLoop words fuel k n)
      (fun res => res = .error .connLost ∨ res = .ok ()) := by
  intro k n
  induction n generalizing k with
  | zero =>
      refine LS_of_lostFree _ _ (fun sc r => ?_)
      intro x hx
      simp [gameLoop, raiseExc] at hx
  | succ n ih =>
      rw [gameLoop]
      refine LS_bind _ _ _ _ (LS_play_round (words k) fuel) (fun again => ?_) ?_ ?_
      · by_cases hb : again = true
        · rw [if_pos hb]
          exact ih (k + 1)
        · rw [if_neg hb]
          exact LS_of_lostFree _ _ (fun sc r x hx => by simp [M.pure] at hx)
      · intro a hP sc r
        rcases hP with hP | hP
        · simp at hP
        · have ha : a = false := by simpa using hP
          subst ha
          constructor
          · simp [M.pure]
          · refine Or.inr ?_
            simp [M.pure]
      · intro e hP
        rcases hP with hP | hP
        · have he : e = .connLost := by simpa using hP
          subst he
          exact Or.inl rfl
        · simp at hP

end VT52

namespace VT52

theorem promptFree_nil : promptFree [] := fun a ha => by simp at ha

theorem promptFree_append (t1 t2 : List Action) (h1 : promptFree t1) (h2 : promptFree t2) :
    promptFree (t1 ++ t2) := by
  intro a ha
  rcases List.mem_append.1 ha with h | h
  · exact h1 a h
  · exact h2 a h

theorem tryAll_pure_tr (m : M α) (x : α) (so : Nat → Bool) (sc : Nat) (r : List RecvRes) :
    (tryAll m (M.pure x) so sc r).tr = (m so sc r).tr := by
  simp only [tryAll]
  rcases hres : (m so sc r).res with e | a
  · simp [M.pure]
  · rfl

/-- Prepending a loss-free segment preserves the split shape. -/
theorem shape_bind_front (m : M α) (f : α → M β)
    (hm : ∀ sc r, lostFree (m soOk sc r).tr)
    (hf : ∀ a sc r, ∃ u v, (f a soOk sc r).tr = u ++ v ∧ lostFree u ∧ promptFree v) :
    ∀ sc r, ∃ u v, (M.bind m f soOk sc r).tr = u ++ v ∧ lostFree u ∧ promptFree v := by
  intro sc r
  simp only [M.bind]
  rcases hres : (m soOk sc r).res with e | a
  · exact ⟨(m soOk sc r).tr, [], (List.append_nil _).symm, hm sc r, promptFree_nil⟩
  · dsimp only
    obtain ⟨u, v, huv, hu, hv⟩ := hf a ((m soOk sc r).sc) ((m soOk sc r).rcv)
    refine ⟨(m soOk sc r).tr ++ u, v, ?_, lostFree_append _ _ (hm sc r) hu, hv⟩
    rw [huv, List.append_assoc]

/-- After an `LS` computation, a loss-free prompt-free epilogue yields
the split shape: everything after the (only, final) loss is prompt-free. -/
theorem shape_of_LS_after (g : M α) (f : α → M β) (Q : Except Exc α → Prop)
    (hg : LS g Q)
    (hf : ∀ a sc r, lostFree (f a soOk sc r).tr ∧ promptFree (f a soOk sc r).tr) :
    ∀ sc r, ∃ u v, (M.bind g f soOk sc r).tr = u ++ v ∧ lostFree u ∧ promptFree v := by
  intro sc r
  simp only [M.bind]
  rcases hres : (g soOk sc r).res with e | a
  · rcases hg sc r with hfree | ⟨hQ, t, hts, htfree⟩
    · exact ⟨(g soOk sc r).tr, [], (List.append_nil _).symm, hfree, promptFree_nil⟩
    · refine ⟨t, [.recv .lost], hts, htfree, ?_⟩
      intro x hx
      rcases List.mem_singleton.1 hx with rfl
      simp [promptAct]
  · dsimp only
    rcases hg sc r with hfree | ⟨hQ, t, hts, htfree⟩
    · exact ⟨(g soOk sc r).tr ++ (f a soOk _ _).tr, [], (List.append_nil _).symm,
        lostFree_append _ _ hfree (hf a _ _).1, promptFree_nil⟩
    · refine ⟨t, [Action.recv .lost] ++ (f a soOk (g soOk sc r).sc (g soOk sc r).rcv).tr,
        ?_, htfree, ?_⟩
      · rw [hts, List.append_assoc]
      · refine promptFree_append _ _ ?_ (hf a ((g soOk sc r).sc) ((g soOk sc r).rcv)).2
        intro x hx
        rcases List.mem_singleton.1 hx with rfl
        simp [promptAct]

/-- The farewell epilogue of `run_game` (clear, home, goodbye): its
three sends are loss-free under `soOk` and none of them is the replay
prompt. -/
theorem after_chain_tr (sc : Nat) (r : List RecvRes) :
    (M.bind clear_screen (fun _ => M.bind (position_cursor 1 1)
        (fun _ => connSend (encodeStr "Thanks for playing! Goodbye!\r\n"))) soOk sc r).tr =
      [.send true [ESC, CURSOR_HOME, ESC, ERASE_SCREEN],
       .send true [27, 89, 32, 32],
       .send true (encodeStr "Thanks for playing! Goodbye!\r\n")] := rfl

theorem after_chain_ok (sc : Nat) (r : List RecvRes) :
    lostFree (M.bind clear_screen (fun _ => M.bind (position_cursor 1 1)
        (fun _ => connSend (encodeStr "Thanks for playing! Goodbye!\r\n"))) soOk sc r).tr ∧
    promptFree (M.bind clear_screen (fun _ => M.bind (position_cursor 1 1)
        (fun _ => connSend (encodeStr "Thanks for playing! Goodbye!\r\n"))) soOk sc r).tr := by
  rw [after_chain_tr]
  constructor <;> intro a ha <;> fin_cases ha <;> decide

/-- C4: for every Connection behaviour (any send-failure oracle, any
receive oracle) the Session records exactly one `close`, as its final
connection operation; `SerialConnection.close` is idempotent (safe
double close) and leaves the port closed; and when sends succeed, no
replay prompt is ever sent after a transport loss — the session
proceeds straight to close. -/
theorem c4_connection_lost_teardown :
    (∀ (words : Nat → String) (fuel : Nat) (so : Nat → Bool) (sc : Nat) (r : List RecvRes),
       ((run_game words fuel so sc r).tr.count .close = 1 ∧
        (run_game words fuel so sc r).tr.getLast? = some .close)) ∧
    (∀ s : SerialPort,
       serialCloseOp (serialCloseOp s) = serialCloseOp s ∧
       (serialCloseOp s).is_open = false) ∧
    (∀ (words : Nat → String) (fuel : Nat) (so : Nat → Bool) (sc : Nat) (r : List RecvRes),
       (∀ k, so k = true) →
       noPromptAfterLost (run_game words fuel so sc r).tr) := by
  refine ⟨c4_close_exactly_once.1, c4_close_exactly_once.2, ?_⟩
  intro words fuel so sc r hso
  have hfun : so = soOk := funext fun k => hso k
  subst hfun
  have hshape : ∃ u v,
      ((M.bind clear_screen (fun _ =>
          M.bind (sendLinesCRLF welcomeLines) (fun _ =>
            M.bind (gameLoop words fuel 0 fuel) (fun _ =>
              M.bind clear_screen (fun _ =>
                M.bind (position_cursor 1 1) (fun _ =>
                  connSend (encodeStr "Thanks for playing! Goodbye!\r\n"))))))) soOk sc r).tr =
        u ++ v ∧ lostFree u ∧ promptFree v := by
    refine shape_bind_front _ _
      (fun sc r => lostFree_clear_screen sc r) ?_ sc r
    intro _
    refine shape_bind_front _ _
      (fun sc r => trOnlyAt_sendLinesCRLF soOk _ lostAct_send_soOk welcomeLines sc r) ?_
    intro _
    refine shape_of_LS_after _ _ _ (LS_gameLoop words fuel 0 fuel) ?_
    intro _ sc r
    exact after_chain_ok sc r
  obtain ⟨u, v, huv, hu, hv⟩ := hshape
  have hkey : (run_game words fuel soOk sc r).tr =
      ((M.bind clear_screen (fun _ =>
          M.bind (sendLinesCRLF welcomeLines) (fun _ =>
            M.bind (gameLoop words fuel 0 fuel) (fun _ =>
              M.bind clear_screen (fun _ =>
                M.bind (position_cursor 1 1) (fun _ =>
                  connSend (encodeStr "Thanks for playing! Goodbye!\r\n"))))))) soOk sc r).tr
        ++ [Action.close] := by
    show (M.bind (tryAll _ (M.pure ())) (fun _ => connClose) soOk sc r).tr = _
    simp only [M.bind, tryAll_pure_unit_res]
    rw [tryAll_pure_tr]
    rfl
  rw [hkey, huv, List.append_assoc]
  refine noPromptAfterLost_of_split _ u (v ++ [Action.close]) rfl hu ?_
  refine promptFree_append _ _ hv ?_
  intro x hx
  rcases List.mem_singleton.1 hx with rfl
  simp [promptAct]

/-- Witness for C4's conditional part at a concrete run: the connection
drops at the first guess read; the recorded session trace still shows
one final close and no prompt after the loss. -/
theorem c4_connection_lost_teardown_witness :
    noPromptAfterLost (run_game (fun _ => "LION") 3 (fun _ => true) 0 [.lost]).tr :=
  c4_connection_lost_teardown.2.2 (fun _ => "LION") 3 (fun _ => true) 0 [.lost]
    (fun _ => rfl)

end VT52

namespace VT52

/-! ### C10: round invariants and in-bounds hangman rendering -/

/-- `m` never raises a Python error (`IndexError`/`ValueError`), and
every normal result satisfies `P`. -/
def NPEv (m : M α) (P : α → Prop) : Prop :=
  ∀ so sc r, (m so sc r).res ≠ .error .pyError ∧
    ∀ a, (m so sc r).res = .ok a → P a

theorem NPEv_pure (x : α) (P : α → Prop) (h : P x) : NPEv (M.pure x) P := by
  intro so sc r
  exact ⟨by simp [M.pure], fun a ha => by
    simp only [M.pure] at ha
    cases ha
    exact h⟩

theorem NPEv_raise (e : Exc) (P : α → Prop) (he : e ≠ .pyError) :
    NPEv (raiseExc e : M α) P := by
  intro so sc r
  refine ⟨?_, fun a ha => by simp [raiseExc] at ha⟩
  simp only [raiseExc, ne_eq, Except.error.injEq]
  exact fun h => he h

theorem NPEv_connSend (d : List Nat) (P : Unit → Prop) (h : P ()) :
    NPEv (connSend d) P := by
  intro so sc r
  constructor
  · simp only [connSend]
    split <;> simp
  · intro a _
    exact h

theorem NPEv_connRecv (P : List Nat → Prop) (h : ∀ bs, P bs) : NPEv connRecv P := by
  intro so sc r
  rcases r with _ | ⟨bs | _, rest⟩
  · exact ⟨by simp [connRecv], fun a ha => by simp [connRecv] at ha⟩
  · exact ⟨by simp [connRecv], fun a ha => h a⟩
  · exact ⟨by simp [connRecv], fun a ha => by simp [connRecv] at ha⟩

theorem NPEv_bind (m : M α) (f : α → M β) (P : α → Prop) (Q : β → Prop)
    (hm : NPEv m P) (hf : ∀ a, P a → NPEv (f a) Q) : NPEv (M.bind m f) Q := by
  intro so sc r
  simp only [M.bind]
  rcases hres : (m so sc r).res with e | a
  · refine ⟨?_, fun b hb => by simp at hb⟩
    intro hcon
    simp only [Except.error.injEq] at hcon
    exact (hm so sc r).1 (by rw [hres, hcon])
  · dsimp only
    exact hf a ((hm so sc r).2 a hres) so ((m so sc r).sc) ((m so sc r).rcv)

theorem NPEv_tryConn (m h : M α) (P Q R : α → Prop)
    (hm : NPEv m P) (hh : NPEv h Q)
    (hPR : ∀ a, P a → R a) (hQR : ∀ a, Q a → R a) :
    NPEv (tryConn m h) R := by
  intro so sc r
  simp only [tryConn]
  rcases hres : (m so sc r).res with e | a
  · rcases e with _ | _ | _
    · refine ⟨(hh so _ _).1, fun a ha => hQR a ((hh so _ _).2 a ha)⟩
    · exact absurd hres (hm so sc r).1
    · refine ⟨(hm so sc r).1, fun a ha => ?_⟩
      have ha2 : (m so sc r).res = .ok a := ha
      rw [hres] at ha2
      simp at ha2
  · refine ⟨(hm so sc r).1, fun b hb => ?_⟩
    have hb2 : (m so sc r).res = .ok b := hb
    rw [hres] at hb2
    simp only [Except.ok.injEq] at hb2
    exact hb2 ▸ hPR a ((hm so sc r).2 a hres)

theorem NPEv_ite (c : Prop) [Decidable c] (m1 m2 : M α) (P : α → Prop)
    (h1 : NPEv m1 P) (h2 : NPEv m2 P) : NPEv (if c then m1 else m2) P := by
  split <;> assumption

theorem positionCursorBytes_isSome (row col : Int)
    (h1 : -31 ≤ row) (h2 : row ≤ 224) (h3 : -31 ≤ col) (h4 : col ≤ 224) :
    positionCursorBytes row col =
      some [ESC, CURSOR_POS, (row + 31).toNat, (col + 31).toNat] := by
  have hr : 0 ≤ row + 31 ∧ row + 31 < 256 := by omega
  have hc : 0 ≤ col + 31 ∧ col + 31 < 256 := by omega
  simp [positionCursorBytes, byteOf, hr, hc]

theorem NPEv_position_cursor (row col : Int)
    (h1 : -31 ≤ row) (h2 : row ≤ 224) (h3 : -31 ≤ col) (h4 : col ≤ 224)
    (P : Unit → Prop) (h : P ()) : NPEv (position_cursor row col) P := by
  unfold position_cursor
  rw [positionCursorBytes_isSome row col h1 h2 h3 h4]
  exact NPEv_connSend _ P h

theorem NPEv_clear_screen : NPEv clear_screen (fun _ => True) :=
  NPEv_connSend _ _ trivial

theorem NPEv_sendArtLines (art : List String) :
    ∀ i : Int, 0 ≤ i → i + art.length ≤ 200 →
      NPEv (sendArtLines art i) (fun _ => True) := by
  induction art with
  | nil => exact fun i _ _ => NPEv_pure () _ trivial
  | cons line rest ih =>
      intro i hi hb
      simp only [List.length_cons] at hb
      refine NPEv_bind _ _ (fun _ => True) _
        (NPEv_position_cursor (3 + i) 5 (by omega) (by omega) (by omega) (by omega) _
          trivial)
        (fun _ _ => ?_)
      refine NPEv_bind _ _ (fun _ => True) _ (NPEv_connSend _ _ trivial) (fun _ _ => ?_)
      exact ih (i + 1) (by omega) (by omega)

theorem pyIndex_stages_length (i : Int) (art : List String)
    (h : pyIndex stages i = some art) : art.length = 7 := by
  have hmem : art ∈ stages := by
    unfold pyIndex at h
    split at h
    · split at h
      · exact List.get?_mem h
      · cases h
    · split at h
      · exact List.get?_mem h
      · cases h
  fin_cases hmem <;> rfl

theorem NPEv_draw_hangman (stage a : Nat) (ha : a ≤ 6) :
    NPEv (draw_hangman stage a) (fun _ => True) := by
  unfold draw_hangman
  rcases hpi : pyIndex stages ((max_attempts : Int) - (a : Int)) with _ | art
  · exfalso
    interval_cases a <;> exact absurd hpi (by decide)
  · refine NPEv_sendArtLines art 0 le_rfl ?_
    rw [pyIndex_stages_length _ _ hpi]
    norm_num

end VT52

namespace VT52

theorem bytesLe_single_true (x y : Nat) (h : bytesLe [x] [y] = true) : x ≤ y := by
  unfold bytesLe at h
  split at h
  · omega
  · split at h
    · cases h
    · omega

theorem NPEv_getInputLoop (fuel : Nat) :
    NPEv (getInputLoop fuel) (fun g => 65 ≤ g.toNat ∧ g.toNat ≤ 90) := by
  induction fuel with
  | zero => exact NPEv_raise _ _ (by simp)
  | succ n ih =>
      intro so sc r
      rcases r with _ | ⟨bs | _, rest⟩
      · have hres : (getInputLoop (n + 1) so sc []).res = .error .connLost := rfl
        rw [hres]
        exact ⟨by simp, fun a ha => by simp at ha⟩
      · rcases bs with _ | ⟨b, bs'⟩
        · have hres : (getInputLoop (n + 1) so sc (.bytes [] :: rest)).res =
              .error .connLost := rfl
          rw [hres]
          exact ⟨by simp, fun a ha => by simp at ha⟩
        · have hne : ¬ (([b] : List Nat) = []) := by simp
          by_cases hc : (bytesLe [65] [upperByte b] && bytesLe [upperByte b] [90]) = true
          · have hres : (getInputLoop (n + 1) so sc (.bytes (b :: bs') :: rest)).res =
                (M.bind (connSend ([upperByte b] ++ [13, 10]))
                  (fun _ => M.pure (Char.ofNat ([upperByte b].headD 0))) so sc rest).res := by
              simp only [getInputLoop, bind_eq, M.bind, connRecv, List.take, List.map,
                if_neg hne, if_pos hc]
            rw [hres]
            have hb : 65 ≤ upperByte b ∧ upperByte b ≤ 90 := by
              rw [Bool.and_eq_true] at hc
              exact ⟨bytesLe_single_true _ _ hc.1, bytesLe_single_true _ _ hc.2⟩
            constructor
            · simp only [M.bind, connSend]
              rcases hso : so sc with _ | _ <;> simp [M.pure]
            · intro a ha
              simp only [M.bind, connSend] at ha
              rcases hso : so sc with _ | _ <;> rw [hso] at ha <;> simp [M.pure] at ha
              rw [← ha]
              have hval : (Char.ofNat (upperByte b)).toNat = upperByte b :=
                charOfNat_toNat _ (by omega)
              rw [hval]
              exact hb
          · have hres : (getInputLoop (n + 1) so sc (.bytes (b :: bs') :: rest)).res =
                (getInputLoop n so sc rest).res := by
              simp only [getInputLoop, bind_eq, M.bind, connRecv, List.take, List.map,
                if_neg hne, if_neg hc]
            rw [hres]
            exact ⟨(ih so sc rest).1, (ih so sc rest).2⟩
      · have hres : (getInputLoop (n + 1) so sc (.lost :: rest)).res =
            .error .connLost := rfl
        rw [hres]
        exact ⟨by simp, fun a ha => by simp at ha⟩

theorem NPEv_get_input (fuel : Nat) :
    NPEv (get_input fuel) (fun g => 65 ≤ g.toNat ∧ g.toNat ≤ 90) := by
  unfold get_input
  refine NPEv_bind _ _ (fun _ => True) _
    (NPEv_position_cursor 18 5 (by norm_num) (by norm_num) (by norm_num) (by norm_num) _
      trivial)
    (fun _ _ => ?_)
  refine NPEv_bind _ _ (fun _ => True) _ (NPEv_connSend _ _ trivial) (fun _ _ => ?_)
  exact NPEv_getInputLoop fuel

theorem NPEv_replayLoop (fuel : Nat) : NPEv (replayLoop fuel) (fun _ => True) := by
  induction fuel with
  | zero => exact NPEv_raise _ _ (by simp)
  | succ n ih =>
      refine NPEv_bind _ _ (fun _ => True) _ (NPEv_connRecv _ (fun _ => trivial))
        (fun bs _ => ?_)
      refine NPEv_ite _ _ _ _ (NPEv_pure _ _ trivial) ?_
      exact NPEv_ite _ _ _ _ (NPEv_pure _ _ trivial) ih

theorem NPEv_display_word (animal : String) (guessed : List Char) :
    NPEv (display_word animal guessed) (fun _ => True) := by
  unfold display_word
  refine NPEv_bind _ _ (fun _ => True) _
    (NPEv_position_cursor 12 5 (by norm_num) (by norm_num) (by norm_num) (by norm_num) _
      trivial) (fun _ _ => NPEv_connSend _ _ trivial)

theorem NPEv_display_guessed_letters (guessed : List Char) :
    NPEv (display_guessed_letters guessed) (fun _ => True) := by
  unfold display_guessed_letters
  refine NPEv_bind _ _ (fun _ => True) _
    (NPEv_position_cursor 14 5 (by norm_num) (by norm_num) (by norm_num) (by norm_num) _
      trivial) (fun _ _ => NPEv_connSend _ _ trivial)

theorem NPEv_display_attempts (attempts_left : Nat) :
    NPEv (display_attempts attempts_left) (fun _ => True) := by
  unfold display_attempts
  refine NPEv_bind _ _ (fun _ => True) _
    (NPEv_position_cursor 16 5 (by norm_num) (by norm_num) (by norm_num) (by norm_num) _
      trivial) (fun _ _ => NPEv_connSend _ _ trivial)

theorem NPEv_round_loop (animal : String) (fuel : Nat) :
    ∀ (gs : List Char) (a : Nat), a ≤ 6 →
      NPEv (round_loop animal fuel gs a) (fun _ => True) := by
  induction fuel with
  | zero => exact fun gs a _ => NPEv_raise _ _ (by simp)
  | succ n ih =>
      intro gs a ha
      rw [round_loop]
      refine NPEv_ite _ _ _ _ ?_ (NPEv_pure _ _ trivial)
      refine NPEv_bind _ _ (fun _ => True) _ NPEv_clear_screen (fun _ _ => ?_)
      refine NPEv_bind _ _ (fun _ => True) _ (NPEv_draw_hangman a a ha) (fun _ _ => ?_)
      refine NPEv_bind _ _ (fun _ => True) _ (NPEv_display_word animal gs) (fun _ _ => ?_)
      refine NPEv_bind _ _ (fun _ => True) _ (NPEv_display_guessed_letters gs)
        (fun _ _ => ?_)
      refine NPEv_bind _ _ (fun _ => True) _ (NPEv_display_attempts a) (fun _ _ => ?_)
      refine NPEv_ite _ _ _ _ ?_ ?_
      · refine NPEv_bind _ _ (fun _ => True) _
          (NPEv_position_cursor 20 5 (by norm_num) (by norm_num) (by norm_num)
            (by norm_num) _ trivial) (fun _ _ => ?_)
        exact NPEv_bind _ _ (fun _ => True) _ (NPEv_connSend _ _ trivial)
          (fun _ _ => NPEv_pure _ _ trivial)
      · refine NPEv_bind _ _ (fun _ => True) _ ?_ (fun og _ => ?_)
        · refine NPEv_tryConn _ _ (fun _ => True) (fun _ => True) _ ?_
            (NPEv_pure _ _ trivial) (fun _ _ => trivial) (fun _ _ => trivial)
          exact NPEv_bind _ _ (fun g => 65 ≤ g.toNat ∧ g.toNat ≤ 90) _
            (NPEv_get_input n) (fun g _ => NPEv_pure _ _ trivial)
        · rcases og with _ | guess
          · exact NPEv_pure _ _ trivial
          · dsimp only
            refine NPEv_ite _ _ _ _ (ih gs a ha) ?_
            refine NPEv_ite _ _ _ _ (ih _ a ha) ?_
            refine NPEv_ite _ _ _ _ ?_ (ih _ _ (by omega))
            refine NPEv_bind _ _ (fun _ => True) _ NPEv_clear_screen (fun _ _ => ?_)
            refine NPEv_bind _ _ (fun _ => True) _ (NPEv_draw_hangman max_attempts 0
              (by norm_num)) (fun _ _ => ?_)
            refine NPEv_bind _ _ (fun _ => True) _
              (NPEv_position_cursor 20 5 (by norm_num) (by norm_num) (by norm_num)
                (by norm_num) _ trivial) (fun _ _ => ?_)
            exact NPEv_bind _ _ (fun _ => True) _ (NPEv_connSend _ _ trivial)
              (fun _ _ => ih _ _ (by omega))

theorem NPEv_play_round (animal : String) (fuel : Nat) :
    NPEv (play_round animal fuel) (fun _ => True) := by
  unfold play_round
  refine NPEv_bind _ _ (fun _ => True) _ NPEv_clear_screen (fun _ _ => ?_)
  refine NPEv_bind _ _ (fun _ => True) _ (NPEv_round_loop animal fuel [] max_attempts
    (by norm_num [max_attempts])) (fun ores _ => ?_)
  rcases ores with _ | b
  · refine NPEv_bind _ _ (fun _ => True) _
      (NPEv_position_cursor 22 5 (by norm_num) (by norm_num) (by norm_num) (by norm_num)
        _ trivial) (fun _ _ => ?_)
    refine NPEv_bind _ _ (fun _ => True) _ (NPEv_connSend _ _ trivial) (fun _ _ => ?_)
    exact NPEv_tryConn _ _ (fun _ => True) (fun _ => True) _ (NPEv_replayLoop fuel)
      (NPEv_pure _ _ trivial) (fun _ _ => trivial) (fun _ _ => trivial)
  · exact NPEv_pure _ _ trivial

inductive ReachableRound (animal : String) : List Char × Nat → Prop
  | init : ReachableRound animal ([], max_attempts)
  | step (st : List Char × Nat) (g : Char) :
      ReachableRound animal st → 0 < st.2 → 65 ≤ g.toNat → g.toNat ≤ 90 →
      ReachableRound animal (guessStep animal st g)

theorem reachable_invariant (animal : String) (st : List Char × Nat)
    (h : ReachableRound animal st) :
    st.2 ≤ 6 ∧ ∀ c ∈ st.1, 65 ≤ c.toNat ∧ c.toNat ≤ 90 := by
  induction h with
  | init => exact ⟨by norm_num [max_attempts], fun c hc => by simp at hc⟩
  | step st g hst hpos hg1 hg2 ih =>
      constructor
      · unfold guessStep
        split
        · exact ih.1
        · split
          · exact ih.1
          · simp only
            omega
      · intro c hc
        rw [mem_guessStep] at hc
        rcases hc with rfl | hc
        · exact ⟨hg1, hg2⟩
        · exact ih.2 c hc

end VT52

namespace VT52

/-- C10: in every reachable state of a game round the attempts counter
is at most 6 (and at least 0 by type) and every guessed letter is an
uppercase ASCII letter 'A'-'Z'; hence the hangman stage index
`max_attempts - attempts_left` always lies inside the 7-element stage
list.  `get_input`'s read loop only ever returns letters in 'A'-'Z',
and neither the round loop started from a reachable state nor a whole
`play_round` can raise a Python error (no out-of-range list indexing,
no invalid `bytes` value). -/
theorem c10_round_invariants :
    (∀ (animal : String) (st : List Char × Nat), ReachableRound animal st →
       st.2 ≤ 6 ∧ (∀ c ∈ st.1, 65 ≤ c.toNat ∧ c.toNat ≤ 90) ∧
       0 ≤ (max_attempts : Int) - (st.2 : Int) ∧
       (max_attempts : Int) - (st.2 : Int) < (stages.length : Int)) ∧
    (∀ (fuel : Nat) (so : Nat → Bool) (sc : Nat) (r : List RecvRes) (g : Char),
       (getInputLoop fuel so sc r).res = .ok g → 65 ≤ g.toNat ∧ g.toNat ≤ 90) ∧
    (∀ (animal : String) (st : List Char × Nat), ReachableRound animal st →
       ∀ (fuel : Nat) (so : Nat → Bool) (sc : Nat) (r : List RecvRes),
         (round_loop animal fuel st.1 st.2 so sc r).res ≠ .error .pyError) ∧
    (∀ (animal : String) (fuel : Nat) (so : Nat → Bool) (sc : Nat) (r : List RecvRes),
       (play_round animal fuel so sc r).res ≠ .error .pyError) := by
  refine ⟨?_, ?_, ?_, ?_⟩
  · intro animal st h
    obtain ⟨h1, h2⟩ := reachable_invariant animal st h
    refine ⟨h1, h2, ?_, ?_⟩
    · simp only [max_attempts]
      omega
    · have hlen : stages.length = 7 := rfl
      rw [hlen]
      simp only [max_attempts]
      omega
  · intro fuel so sc r g hg
    exact (NPEv_getInputLoop fuel so sc r).2 g hg
  · intro animal st h fuel so sc r
    exact (NPEv_round_loop animal fuel st.1 st.2 (reachable_invariant animal st h).1
      so sc r).1
  · intro animal fuel so sc r
    exact (NPEv_play_round animal fuel so sc r).1

/-- Witness for C10: the state after a wrong guess 'X' from the initial
state is reachable and satisfies the invariants; the round loop from
the initial state does not raise a Python error on a concrete run. -/
theorem c10_round_invariants_witness :
    ((guessStep "LION" ([], max_attempts) 'X').2 ≤ 6 ∧
     (∀ c ∈ (guessStep "LION" ([], max_attempts) 'X').1, 65 ≤ c.toNat ∧ c.toNat ≤ 90) ∧
     0 ≤ (max_attempts : Int) - ((guessStep "LION" ([], max_attempts) 'X').2 : Int) ∧
     (max_attempts : Int) - ((guessStep "LION" ([], max_attempts) 'X').2 : Int) <
       (stages.length : Int)) ∧
    (round_loop "LION" 2 [] max_attempts (fun _ => true) 0 [.bytes [88]]).res ≠
      .error .pyError := by
  have hr : ReachableRound "LION" (guessStep "LION" ([], max_attempts) 'X') :=
    ReachableRound.step ([], max_attempts) 'X' ReachableRound.init (by decide) (by decide)
      (by decide)
  exact ⟨c10_round_invariants.1 "LION" _ hr,
    c10_round_invariants.2.2.1 "LION" ([], max_attempts) ReachableRound.init 2
      (fun _ => true) 0 [.bytes [88]]⟩

end VT52

namespace VT52

/-! ### C9: the demo's output is input-independent and phase-ordered -/

/-- The run is independent of the receive oracle (which is returned
untouched) and records no receive action. -/
def inputFree {α : Type} (m : M α) : Prop :=
  ∀ so sc r rr,
    ((m so sc r).res = (m so sc rr).res ∧ (m so sc r).sc = (m so sc rr).sc ∧
     (m so sc r).tr = (m so sc rr).tr ∧ (m so sc r).rcv = r) ∧
    ∀ a ∈ (m so sc r).tr, ∀ x, a ≠ Action.recv x

theorem inputFree_pure {α : Type} (x : α) : inputFree (M.pure x) := by
  intro so sc r rr
  exact ⟨⟨rfl, rfl, rfl, rfl⟩, fun a ha => by simp [M.pure] at ha⟩

theorem inputFree_raise {α : Type} (e : Exc) : inputFree (raiseExc e : M α) := by
  intro so sc r rr
  exact ⟨⟨rfl, rfl, rfl, rfl⟩, fun a ha => by simp [raiseExc] at ha⟩

theorem inputFree_connSend (d : List Nat) : inputFree (connSend d) := by
  intro so sc r rr
  refine ⟨⟨rfl, rfl, rfl, rfl⟩, fun a ha x => ?_⟩
  simp only [connSend, List.mem_singleton] at ha
  subst ha
  simp

theorem inputFree_connClose : inputFree connClose := by
  intro so sc r rr
  refine ⟨⟨rfl, rfl, rfl, rfl⟩, fun a ha x => ?_⟩
  simp only [connClose, List.mem_singleton] at ha
  subst ha
  simp

theorem inputFree_bind {α β : Type} (m : M α) (f : α → M β)
    (hm : inputFree m) (hf : ∀ a, inputFree (f a)) : inputFree (M.bind m f) := by
  intro so sc r rr
  obtain ⟨⟨hres, hsc, htr, hrcv⟩, hnr⟩ := hm so sc r rr
  have hrcv2 : (m so sc rr).rcv = rr := ((hm so sc rr rr).1).2.2.2
  simp only [M.bind]
  rcases he : (m so sc r).res with e | a
  · have he2 : (m so sc rr).res = .error e := by rw [← hres, he]
    rw [he2]
    exact ⟨⟨by simp [hres], hsc, htr, hrcv⟩, hnr⟩
  · have he2 : (m so sc rr).res = .ok a := by rw [← hres, he]
    rw [he2]
    dsimp only
    obtain ⟨⟨hfres, hfsc, hftr, hfrcv⟩, hfnr⟩ :=
      hf a so ((m so sc r).sc) ((m so sc r).rcv) ((m so sc rr).rcv)
    rw [hrcv, hrcv2] at hfres hfsc hftr
    rw [hrcv] at hfrcv
    refine ⟨⟨?_, ?_, ?_, ?_⟩, ?_⟩
    · rw [hrcv, hrcv2, ← hsc]
      exact hfres
    · rw [hrcv, hrcv2, ← hsc]
      exact hfsc
    · rw [htr, hrcv, hrcv2, ← hsc]
      rw [hftr]
    · rw [hrcv]
      exact hfrcv
    · intro a2 ha2 x
      rcases List.mem_append.1 ha2 with h | h
      · exact hnr a2 h x
      · rw [hrcv] at hfnr h
        exact hfnr a2 h x

theorem inputFree_tryAll {α : Type} (m h : M α) (hm : inputFree m) (hh : inputFree h) :
    inputFree (tryAll m h) := by
  intro so sc r rr
  obtain ⟨⟨hres, hsc, htr, hrcv⟩, hnr⟩ := hm so sc r rr
  have hrcv2 : (m so sc rr).rcv = rr := ((hm so sc rr rr).1).2.2.2
  simp only [tryAll]
  rcases he : (m so sc r).res with e | a
  · have he2 : (m so sc rr).res = .error e := by rw [← hres, he]
    rw [he2]
    dsimp only
    obtain ⟨⟨hhres, hhsc, hhtr, hhrcv⟩, hhnr⟩ :=
      hh so ((m so sc r).sc) ((m so sc r).rcv) ((m so sc rr).rcv)
    rw [hrcv, hrcv2] at hhres hhsc hhtr
    rw [hrcv] at hhrcv
    refine ⟨⟨?_, ?_, ?_, ?_⟩, ?_⟩
    · rw [hrcv, hrcv2, ← hsc]
      exact hhres
    · rw [hrcv, hrcv2, ← hsc]
      exact hhsc
    · rw [htr, hrcv, hrcv2, ← hsc]
      rw [hhtr]
    · rw [hrcv]
      exact hhrcv
    · intro a2 ha2 x
      rcases List.mem_append.1 ha2 with hmem | hmem
      · exact hnr a2 hmem x
      · rw [hrcv] at hhnr hmem
        exact hhnr a2 hmem x
  · have he2 : (m so sc rr).res = .ok a := by rw [← hres, he]
    rw [he2]
    exact ⟨⟨hres, hsc, htr, hrcv⟩, hnr⟩

theorem inputFree_ite {α : Type} (c : Prop) [Decidable c] (m1 m2 : M α)
    (h1 : inputFree m1) (h2 : inputFree m2) : inputFree (if c then m1 else m2) := by
  split <;> assumption

theorem inputFree_forList {α : Type} (l : List α) (f : α → M Unit)
    (h : ∀ x, inputFree (f x)) : inputFree (forList l f) := by
  induction l with
  | nil => exact inputFree_pure ()
  | cons x xs ih => exact inputFree_bind _ _ (h x) (fun _ => ih)

theorem inputFree_position_cursor (row col : Int) :
    inputFree (position_cursor row col) := by
  unfold position_cursor
  rcases hpc : positionCursorBytes row col with _ | d <;> simp only [hpc]
  · exact inputFree_raise _
  · exact inputFree_connSend _

theorem inputFree_sendLinesCRLF (lines : List String) :
    inputFree (sendLinesCRLF lines) := by
  induction lines with
  | nil => exact inputFree_pure ()
  | cons line rest ih => exact inputFree_bind _ _ (inputFree_connSend _) (fun _ => ih)

theorem inputFree_test_control_chars : inputFree test_control_chars := by
  unfold test_control_chars
  refine inputFree_bind _ _ (inputFree_connSend _) (fun _ => ?_)
  refine inputFree_bind _ _ (inputFree_connSend _) (fun _ => ?_)
  refine inputFree_bind _ _ (inputFree_position_cursor 1 1) (fun _ => ?_)
  refine inputFree_bind _ _ (inputFree_connSend _) (fun _ => ?_)
  refine inputFree_bind _ _ (inputFree_connSend _) (fun _ => ?_)
  refine inputFree_bind _ _ (inputFree_connSend _) (fun _ => ?_)
  refine inputFree_bind _ _ (inputFree_connSend _) (fun _ => ?_)
  refine inputFree_bind _ _ (inputFree_connSend _) (fun _ => ?_)
  refine inputFree_bind _ _ (inputFree_connSend _) (fun _ => ?_)
  refine inputFree_bind _ _ (inputFree_connSend _) (fun _ => ?_)
  refine inputFree_bind _ _ (inputFree_connSend _) (fun _ => ?_)
  refine inputFree_bind _ _ (inputFree_connSend _) (fun _ => ?_)
  refine inputFree_bind _ _ (inputFree_connSend _) (fun _ => ?_)
  refine inputFree_bind _ _ (inputFree_connSend _) (fun _ => ?_)
  refine inputFree_bind _ _ (inputFree_connSend _) (fun _ => ?_)
  refine inputFree_bind _ _ (inputFree_connSend _) (fun _ => ?_)
  refine inputFree_bind _ _ (inputFree_connSend _) (fun _ => ?_)
  refine inputFree_bind _ _ (inputFree_connSend _) (fun _ => ?_)
  exact inputFree_connSend _

theorem inputFree_test_cursor_positioning : inputFree test_cursor_positioning := by
  unfold test_cursor_positioning
  refine inputFree_bind _ _ (inputFree_connSend _) (fun _ => ?_)
  refine inputFree_bind _ _ (inputFree_connSend _) (fun _ => ?_)
  refine inputFree_bind _ _ (inputFree_position_cursor 1 1) (fun _ => ?_)
  refine inputFree_bind _ _ (inputFree_connSend _) (fun _ => ?_)
  refine inputFree_bind _ _ (inputFree_connSend _) (fun _ => ?_)
  refine inputFree_bind _ _ (inputFree_forList _ _ (fun yx =>
    inputFree_bind _ _ (inputFree_position_cursor _ _)
      (fun _ => inputFree_connSend _))) (fun _ => ?_)
  refine inputFree_bind _ _ (inputFree_position_cursor 12 20) (fun _ => ?_)
  refine inputFree_bind _ _ (inputFree_connSend _) (fun _ => ?_)
  refine inputFree_bind _ _ (inputFree_forList _ _ (fun _ =>
    inputFree_bind _ _ (inputFree_connSend _) (fun _ => inputFree_connSend _)))
    (fun _ => ?_)
  refine inputFree_bind _ _ (inputFree_forList _ _ (fun _ =>
    inputFree_bind _ _ (inputFree_connSend _) (fun _ => inputFree_connSend _)))
    (fun _ => ?_)
  refine inputFree_bind _ _ (inputFree_forList _ _ (fun _ =>
    inputFree_bind _ _ (inputFree_connSend _) (fun _ => inputFree_connSend _)))
    (fun _ => ?_)
  exact inputFree_forList _ _ (fun _ =>
    inputFree_bind _ _ (inputFree_connSend _) (fun _ => inputFree_connSend _))

theorem inputFree_test_erase_functions : inputFree test_erase_functions := by
  unfold test_erase_functions
  refine inputFree_bind _ _ (inputFree_connSend _) (fun _ => ?_)
  refine inputFree_bind _ _ (inputFree_connSend _) (fun _ => ?_)
  refine inputFree_bind _ _ (inputFree_position_cursor 1 1) (fun _ => ?_)
  refine inputFree_bind _ _ (inputFree_connSend _) (fun _ => ?_)
  refine inputFree_bind _ _ (inputFree_forList _ _ (fun y =>
    inputFree_bind _ _ (inputFree_position_cursor _ _)
      (fun _ => inputFree_connSend _))) (fun _ => ?_)
  refine inputFree_bind _ _ (inputFree_connSend _) (fun _ => ?_)
  refine inputFree_bind _ _ (inputFree_position_cursor 10 20) (fun _ => ?_)
  refine inputFree_bind _ _ (inputFree_connSend _) (fun _ => ?_)
  refine inputFree_bind _ _ (inputFree_position_cursor 10 40) (fun _ => ?_)
  refine inputFree_bind _ _ (inputFree_connSend _) (fun _ => ?_)
  refine inputFree_bind _ _ (inputFree_connSend _) (fun _ => ?_)
  refine inputFree_bind _ _ (inputFree_position_cursor 15 20) (fun _ => ?_)
  refine inputFree_bind _ _ (inputFree_connSend _) (fun _ => ?_)
  exact inputFree_connSend _

theorem inputFree_test_scroll_behavior : inputFree test_scroll_behavior := by
  unfold test_scroll_behavior
  refine inputFree_bind _ _ (inputFree_connSend _) (fun _ => ?_)
  refine inputFree_bind _ _ (inputFree_connSend _) (fun _ => ?_)
  refine inputFree_bind _ _ (inputFree_position_cursor 1 1) (fun _ => ?_)
  refine inputFree_bind _ _ (inputFree_connSend _) (fun _ => ?_)
  refine inputFree_bind _ _ (inputFree_connSend _) (fun _ => ?_)
  refine inputFree_bind _ _ (inputFree_connSend _) (fun _ => ?_)
  refine inputFree_bind _ _ (inputFree_forList _ _ (fun i =>
    inputFree_bind _ _ (inputFree_position_cursor _ _)
      (fun _ => inputFree_connSend _))) (fun _ => ?_)
  refine inputFree_bind _ _ (inputFree_connSend _) (fun _ => ?_)
  refine inputFree_bind _ _ (inputFree_connSend _) (fun _ => ?_)
  refine inputFree_bind _ _ (inputFree_connSend _) (fun _ => ?_)
  refine inputFree_bind _ _ (inputFree_position_cursor 22 1) (fun _ => ?_)
  refine inputFree_bind _ _ (inputFree_forList _ _ (fun i => inputFree_connSend _))
    (fun _ => ?_)
  refine inputFree_bind _ _ (inputFree_connSend _) (fun _ => ?_)
  refine inputFree_bind _ _ (inputFree_connSend _) (fun _ => ?_)
  refine inputFree_bind _ _ (inputFree_position_cursor 10 1) (fun _ => ?_)
  exact inputFree_forList _ _ (fun i =>
    inputFree_bind _ _ (inputFree_connSend _) (fun _ => inputFree_connSend _))

theorem inputFree_demo_cursor_movement : inputFree demo_cursor_movement := by
  unfold demo_cursor_movement
  refine inputFree_bind _ _ (inputFree_connSend _) (fun _ => ?_)
  refine inputFree_bind _ _ (inputFree_connSend _) (fun _ => ?_)
  refine inputFree_bind _ _ (inputFree_position_cursor 1 1) (fun _ => ?_)
  refine inputFree_bind _ _ (inputFree_connSend _) (fun _ => ?_)
  refine inputFree_bind _ _ (inputFree_position_cursor 5 10) (fun _ => ?_)
  refine inputFree_bind _ _ (inputFree_forList _ _ (fun _ => inputFree_connSend _))
    (fun _ => ?_)
  refine inputFree_bind _ _ (inputFree_forList _ _ (fun _ =>
    inputFree_bind _ _ (inputFree_connSend _) (fun _ =>
      inputFree_bind _ _ (inputFree_connSend _) (fun _ => inputFree_connSend _))))
    (fun _ => ?_)
  refine inputFree_bind _ _ (inputFree_forList _ _ (fun _ =>
    inputFree_bind _ _ (inputFree_connSend _) (fun _ =>
      inputFree_bind _ _ (inputFree_connSend _) (fun _ => inputFree_connSend _))))
    (fun _ => ?_)
  exact inputFree_forList _ _ (fun _ =>
    inputFree_bind _ _ (inputFree_connSend _) (fun _ =>
      inputFree_bind _ _ (inputFree_connSend _) (fun _ => inputFree_connSend _)))

theorem inputFree_interlude : inputFree interlude := by
  unfold interlude
  exact inputFree_bind _ _ (inputFree_position_cursor 22 1)
    (fun _ => inputFree_connSend _)

theorem inputFree_run_demo : inputFree run_demo := by
  unfold run_demo
  refine inputFree_bind _ _ ?_ (fun _ => inputFree_connClose)
  refine inputFree_tryAll _ _ ?_ (inputFree_pure ())
  refine inputFree_bind _ _ (inputFree_connSend _) (fun _ => ?_)
  refine inputFree_bind _ _ (inputFree_connSend _) (fun _ => ?_)
  refine inputFree_bind _ _ (inputFree_sendLinesCRLF _) (fun _ => ?_)
  refine inputFree_bind _ _ inputFree_test_control_chars (fun _ => ?_)
  refine inputFree_bind _ _ inputFree_interlude (fun _ => ?_)
  refine inputFree_bind _ _ inputFree_test_cursor_positioning (fun _ => ?_)
  refine inputFree_bind _ _ inputFree_interlude (fun _ => ?_)
  refine inputFree_bind _ _ inputFree_test_erase_functions (fun _ => ?_)
  refine inputFree_bind _ _ inputFree_interlude (fun _ => ?_)
  refine inputFree_bind _ _ inputFree_test_scroll_behavior (fun _ => ?_)
  refine inputFree_bind _ _ inputFree_interlude (fun _ => ?_)
  refine inputFree_bind _ _ inputFree_demo_cursor_movement (fun _ => ?_)
  refine inputFree_bind _ _ inputFree_interlude (fun _ => ?_)
  refine inputFree_bind _ _ (inputFree_connSend _) (fun _ => ?_)
  refine inputFree_bind _ _ (inputFree_connSend _) (fun _ => ?_)
  refine inputFree_bind _ _ (inputFree_position_cursor 1 1) (fun _ => ?_)
  exact inputFree_sendLinesCRLF _

/-- Phase-header payloads of the demo, in claimed order. -/
def markerOf (a : Action) : Option Nat :=
  match a with
  | .send _ d =>
      if d = encodeStr "Control Characters Test:\r\n\n" then some 1
      else if d = encodeStr "Cursor Positioning Test:\r\n\n" then some 2
      else if d = encodeStr "Erase Functions Test:\r\n\n" then some 3
      else if d = encodeStr "Scroll Behavior Test:\r\n\n" then some 4
      else if d = encodeStr "Box Drawing Demo:\r\n\n" then some 5
      else if d = encodeStr "            Test Summary:" ++ [13, 10] then some 6
      else none
  | _ => none


/-- Under the all-sends-succeed oracle, `m` finishes normally and the
phase markers occurring in its trace are exactly `out`, in order. -/
def FMok {α : Type} (m : M α) (out : List Nat) : Prop :=
  ∀ sc r, (∃ a, (m soOk sc r).res = .ok a) ∧
    (m soOk sc r).tr.filterMap markerOf = out

theorem FMok_pure {α : Type} (x : α) : FMok (M.pure x) [] :=
  fun sc r => ⟨⟨x, rfl⟩, rfl⟩

theorem FMok_connSend (d : List Nat) (o : List Nat)
    (h : (markerOf (.send true d)).toList = o) : FMok (connSend d) o := by
  intro sc r
  refine ⟨⟨(), rfl⟩, ?_⟩
  show (markerOf (.send true d)).toList = o
  exact h

theorem FMok_connClose : FMok connClose [] :=
  fun sc r => ⟨⟨(), rfl⟩, rfl⟩

theorem FMok_bind {α β : Type} {m : M α} {f : α → M β} {o1 o2 : List Nat}
    (hm : FMok m o1) (hf : ∀ a, FMok (f a) o2) : FMok (M.bind m f) (o1 ++ o2) := by
  intro sc r
  obtain ⟨⟨a, ha⟩, htr⟩ := hm sc r
  simp only [M.bind]
  rw [ha]
  dsimp only
  obtain ⟨⟨b, hb⟩, htr2⟩ := hf a ((m soOk sc r).sc) ((m soOk sc r).rcv)
  exact ⟨⟨b, hb⟩, by rw [List.filterMap_append, htr, htr2]⟩

theorem FMok_forList {α : Type} (l : List α) (f : α → M Unit)
    (h : ∀ x ∈ l, FMok (f x) []) : FMok (forList l f) [] := by
  induction l with
  | nil => exact FMok_pure ()
  | cons x xs ih =>
      exact FMok_bind (h x (List.mem_cons_self _ _))
        (fun _ => ih (fun y hy => h y (List.mem_cons_of_mem _ hy)))

theorem FMok_position_cursor (row col : Int) (d : List Nat)
    (h : positionCursorBytes row col = some d)
    (hm : (markerOf (.send true d)).toList = ([] : List Nat)) :
    FMok (position_cursor row col) [] := by
  unfold position_cursor
  rw [h]
  exact FMok_connSend d [] hm

theorem filterMap_cons_toList {α β : Type} (f : α → Option β) (x : α) (l : List α) :
    List.filterMap f (x :: l) = (f x).toList ++ List.filterMap f l := by
  rcases hf : f x with _ | b <;> simp [List.filterMap_cons, hf]

theorem FMok_sendLinesCRLF (lines : List String) (out : List Nat)
    (h : (lines.map (fun line =>
        markerOf (.send true (encodeStr line ++ [13, 10])))).filterMap id = out) :
    FMok (sendLinesCRLF lines) out := by
  induction lines generalizing out with
  | nil =>
      subst h
      exact FMok_pure ()
  | cons line rest ih =>
      subst h
      simp only [List.map_cons, filterMap_cons_toList, Option.toList, id]
      refine FMok_bind (FMok_connSend _ _ rfl) (fun _ => ih _ rfl)

theorem FMok_tryAll_pure {α : Type} {m : M α} (x : α) {out : List Nat}
    (hm : FMok m out) : FMok (tryAll m (M.pure x)) out := by
  intro sc r
  obtain ⟨⟨a, ha⟩, htr⟩ := hm sc r
  simp only [tryAll]
  rw [ha]
  exact ⟨⟨a, ha⟩, htr⟩

theorem FMok_congr {α : Type} {m : M α} {o : List Nat} (o' : List Nat)
    (hm : FMok m o) (h : o = o') : FMok m o' := h ▸ hm

theorem FMok_connSend2 (d : List Nat) :
    FMok (connSend d) ((markerOf (.send true d)).toList) :=
  fun sc r => ⟨⟨(), rfl⟩, rfl⟩

theorem markerOf_quad (k : Bool) (a b c d : Nat) :
    markerOf (Action.send k [a, b, c, d]) = none := by
  simp only [markerOf]
  rw [if_neg, if_neg, if_neg, if_neg, if_neg, if_neg]
  all_goals intro h
  all_goals simpa [encodeStr] using congrArg List.length h

theorem FMok_position_cursorIn (row col : Int)
    (h1 : -31 ≤ row) (h2 : row ≤ 224) (h3 : -31 ≤ col) (h4 : col ≤ 224) :
    FMok (position_cursor row col) [] := by
  unfold position_cursor
  rw [positionCursorBytes_isSome row col h1 h2 h3 h4]
  have h := FMok_connSend2 [ESC, CURSOR_POS, (row + 31).toNat, (col + 31).toNat]
  rw [markerOf_quad] at h
  exact h

theorem FMok_send_unmarked (d : List Nat) (h : markerOf (.send true d) = none) :
    FMok (connSend d) [] := by
  have h2 := FMok_connSend2 d
  rw [h] at h2
  exact h2

theorem FMok_interlude : FMok interlude [] := by
  unfold interlude
  exact FMok_bind
    (FMok_position_cursorIn 22 1 (by norm_num) (by norm_num) (by norm_num) (by norm_num))
    (fun _ => FMok_send_unmarked (encodeStr "\r3 seconds to continue...") (by decide))

theorem FMok_test_control_chars : FMok test_control_chars [1] := by
  unfold test_control_chars
  have hp : FMok (position_cursor 1 1) [] :=
    FMok_position_cursorIn 1 1 (by norm_num) (by norm_num) (by norm_num) (by norm_num)
  apply FMok_congr
  apply FMok_bind (FMok_connSend2 _)
  intro _
  apply FMok_bind (FMok_connSend2 _)
  intro _
  apply FMok_bind hp
  intro _
  apply FMok_bind (FMok_connSend2 _)
  intro _
  apply FMok_bind (FMok_connSend2 _)
  intro _
  apply FMok_bind (FMok_connSend2 _)
  intro _
  apply FMok_bind (FMok_connSend2 _)
  intro _
  apply FMok_bind (FMok_connSend2 _)
  intro _
  apply FMok_bind (FMok_connSend2 _)
  intro _
  apply FMok_bind (FMok_connSend2 _)
  intro _
  apply FMok_bind (FMok_connSend2 _)
  intro _
  apply FMok_bind (FMok_connSend2 _)
  intro _
  apply FMok_bind (FMok_connSend2 _)
  intro _
  apply FMok_bind (FMok_connSend2 _)
  intro _
  apply FMok_bind (FMok_connSend2 _)
  intro _
  apply FMok_bind (FMok_connSend2 _)
  intro _
  apply FMok_bind (FMok_connSend2 _)
  intro _
  apply FMok_bind (FMok_connSend2 _)
  intro _
  exact FMok_connSend2 _
  decide

theorem FMok_test_cursor_positioning : FMok test_cursor_positioning [2] := by
  unfold test_cursor_positioning
  have hp : FMok (position_cursor 1 1) [] :=
    FMok_position_cursorIn 1 1 (by norm_num) (by norm_num) (by norm_num) (by norm_num)
  have hp2 : FMok (position_cursor 12 20) [] :=
    FMok_position_cursorIn 12 20 (by norm_num) (by norm_num) (by norm_num) (by norm_num)
  have l1 : ∀ yx ∈ positionsList,
      FMok (do position_cursor yx.1 yx.2; connSend (encodeStr "X")) ([] : List Nat) := by
    intro yx hyx
    have hb : -31 ≤ yx.1 ∧ yx.1 ≤ 224 ∧ -31 ≤ yx.2 ∧ yx.2 ≤ 224 := by
      fin_cases hyx <;> norm_num
    exact FMok_bind (FMok_position_cursorIn yx.1 yx.2 hb.1 hb.2.1 hb.2.2.1 hb.2.2.2)
      (fun _ => FMok_send_unmarked (encodeStr "X") (by decide))
  have l2 : ∀ x ∈ List.range 3,
      FMok (do connSend [ESC, CURSOR_UP]; connSend (encodeStr "^")) ([] : List Nat) :=
    fun x hx => FMok_bind (FMok_send_unmarked [ESC, CURSOR_UP] (by decide))
      (fun _ => FMok_send_unmarked (encodeStr "^") (by decide))
  have l3 : ∀ x ∈ List.range 3,
      FMok (do connSend [ESC, CURSOR_RIGHT]; connSend (encodeStr ">")) ([] : List Nat) :=
    fun x hx => FMok_bind (FMok_send_unmarked [ESC, CURSOR_RIGHT] (by decide))
      (fun _ => FMok_send_unmarked (encodeStr ">") (by decide))
  have l4 : ∀ x ∈ List.range 3,
      FMok (do connSend [ESC, CURSOR_DOWN]; connSend (encodeStr "v")) ([] : List Nat) :=
    fun x hx => FMok_bind (FMok_send_unmarked [ESC, CURSOR_DOWN] (by decide))
      (fun _ => FMok_send_unmarked (encodeStr "v") (by decide))
  have l5 : ∀ x ∈ List.range 3,
      FMok (do connSend [ESC, CURSOR_LEFT]; connSend (encodeStr "<")) ([] : List Nat) :=
    fun x hx => FMok_bind (FMok_send_unmarked [ESC, CURSOR_LEFT] (by decide))
      (fun _ => FMok_send_unmarked (encodeStr "<") (by decide))
  apply FMok_congr
  apply FMok_bind (FMok_connSend2 _)
  intro _
  apply FMok_bind (FMok_connSend2 _)
  intro _
  apply FMok_bind hp
  intro _
  apply FMok_bind (FMok_connSend2 _)
  intro _
  apply FMok_bind (FMok_connSend2 _)
  intro _
  apply FMok_bind (FMok_forList _ _ l1)
  intro _
  apply FMok_bind hp2
  intro _
  apply FMok_bind (FMok_connSend2 _)
  intro _
  apply FMok_bind (FMok_forList _ _ l2)
  intro _
  apply FMok_bind (FMok_forList _ _ l3)
  intro _
  apply FMok_bind (FMok_forList _ _ l4)
  intro _
  exact FMok_forList _ _ l5
  decide

theorem FMok_test_erase_functions : FMok test_erase_functions [3] := by
  unfold test_erase_functions
  have hp : FMok (position_cursor 1 1) [] :=
    FMok_position_cursorIn 1 1 (by norm_num) (by norm_num) (by norm_num) (by norm_num)
  have hp2 : FMok (position_cursor 10 20) [] :=
    FMok_position_cursorIn 10 20 (by norm_num) (by norm_num) (by norm_num) (by norm_num)
  have hp3 : FMok (position_cursor 10 40) [] :=
    FMok_position_cursorIn 10 40 (by norm_num) (by norm_num) (by norm_num) (by norm_num)
  have hp4 : FMok (position_cursor 15 20) [] :=
    FMok_position_cursorIn 15 20 (by norm_num) (by norm_num) (by norm_num) (by norm_num)
  have le : ∀ y ∈ List.range' 5 15,
      FMok (do position_cursor (y : Int) 1
               connSend (encodeStr ("Line " ++ pad2 y ++ ": Testing erase functions...")))
        ([] : List Nat) := by
    intro y hy
    have hb : -31 ≤ (y : Int) ∧ (y : Int) ≤ 224 := by
      fin_cases hy <;> norm_num
    refine FMok_bind (FMok_position_cursorIn (y : Int) 1 hb.1 hb.2 (by norm_num) (by norm_num))
      (fun _ => ?_)
    apply FMok_send_unmarked
    fin_cases hy <;> decide
  apply FMok_congr
  apply FMok_bind (FMok_connSend2 _)
  intro _
  apply FMok_bind (FMok_connSend2 _)
  intro _
  apply FMok_bind hp
  intro _
  apply FMok_bind (FMok_connSend2 _)
  intro _
  apply FMok_bind (FMok_forList _ _ le)
  intro _
  apply FMok_bind (FMok_connSend2 _)
  intro _
  apply FMok_bind hp2
  intro _
  apply FMok_bind (FMok_connSend2 _)
  intro _
  apply FMok_bind hp3
  intro _
  apply FMok_bind (FMok_connSend2 _)
  intro _
  apply FMok_bind (FMok_connSend2 _)
  intro _
  apply FMok_bind hp4
  intro _
  apply FMok_bind (FMok_connSend2 _)
  intro _
  exact FMok_connSend2 _
  decide

theorem FMok_test_scroll_behavior : FMok test_scroll_behavior [4] := by
  unfold test_scroll_behavior
  have hp : FMok (position_cursor 1 1) [] :=
    FMok_position_cursorIn 1 1 (by norm_num) (by norm_num) (by norm_num) (by norm_num)
  have hp2 : FMok (position_cursor 22 1) [] :=
    FMok_position_cursorIn 22 1 (by norm_num) (by norm_num) (by norm_num) (by norm_num)
  have hp3 : FMok (position_cursor 10 1) [] :=
    FMok_position_cursorIn 10 1 (by norm_num) (by norm_num) (by norm_num) (by norm_num)
  have ls1 : ∀ i ∈ List.range' 1 22,
      FMok (do position_cursor (i : Int) 1
               connSend (encodeStr ("Line " ++ pad2 i ++ ": test content")))
        ([] : List Nat) := by
    intro i hi
    have hb : -31 ≤ (i : Int) ∧ (i : Int) ≤ 224 := by
      fin_cases hi <;> norm_num
    refine FMok_bind (FMok_position_cursorIn (i : Int) 1 hb.1 hb.2 (by norm_num) (by norm_num))
      (fun _ => ?_)
    apply FMok_send_unmarked
    fin_cases hi <;> decide
  have ls2 : ∀ i ∈ List.range 7,
      FMok (connSend (encodeStr ("New line " ++ toString i ++ " - testing scroll\r\n")))
        ([] : List Nat) := by
    intro i hi
    apply FMok_send_unmarked
    fin_cases hi <;> decide
  have ls3 : ∀ i ∈ List.range 5,
      FMok (do connSend [ESC, REVERSE_LINEFEED]
               connSend (encodeStr ("Reverse scroll line " ++ toString (i + 1) ++ "\r")))
        ([] : List Nat) := by
    intro i hi
    refine FMok_bind (FMok_send_unmarked [ESC, REVERSE_LINEFEED] (by decide)) (fun _ => ?_)
    apply FMok_send_unmarked
    fin_cases hi <;> decide
  apply FMok_congr
  apply FMok_bind (FMok_connSend2 _)
  intro _
  apply FMok_bind (FMok_connSend2 _)
  intro _
  apply FMok_bind hp
  intro _
  apply FMok_bind (FMok_connSend2 _)
  intro _
  apply FMok_bind (FMok_connSend2 _)
  intro _
  apply FMok_bind (FMok_connSend2 _)
  intro _
  apply FMok_bind (FMok_forList _ _ ls1)
  intro _
  apply FMok_bind (FMok_connSend2 _)
  intro _
  apply FMok_bind (FMok_connSend2 _)
  intro _
  apply FMok_bind (FMok_connSend2 _)
  intro _
  apply FMok_bind hp2
  intro _
  apply FMok_bind (FMok_forList _ _ ls2)
  intro _
  apply FMok_bind (FMok_connSend2 _)
  intro _
  apply FMok_bind (FMok_connSend2 _)
  intro _
  apply FMok_bind hp3
  intro _
  exact FMok_forList _ _ ls3
  decide

theorem FMok_demo_cursor_movement : FMok demo_cursor_movement [5] := by
  unfold demo_cursor_movement
  have hp : FMok (position_cursor 1 1) [] :=
    FMok_position_cursorIn 1 1 (by norm_num) (by norm_num) (by norm_num) (by norm_num)
  have hp2 : FMok (position_cursor 5 10) [] :=
    FMok_position_cursorIn 5 10 (by norm_num) (by norm_num) (by norm_num) (by norm_num)
  have lb1 : ∀ x ∈ List.range 10, FMok (connSend (encodeStr "*")) ([] : List Nat) :=
    fun x hx => FMok_send_unmarked (encodeStr "*") (by decide)
  have lb2 : ∀ x ∈ List.range 5,
      FMok (do connSend [ESC, CURSOR_DOWN]; connSend [ESC, CURSOR_LEFT];
               connSend (encodeStr "*")) ([] : List Nat) :=
    fun x hx => FMok_bind (FMok_send_unmarked [ESC, CURSOR_DOWN] (by decide))
      (fun _ => FMok_bind (FMok_send_unmarked [ESC, CURSOR_LEFT] (by decide))
        (fun _ => FMok_send_unmarked (encodeStr "*") (by decide)))
  have lb3 : ∀ x ∈ List.range 10,
      FMok (do connSend [ESC, CURSOR_LEFT]; connSend [ESC, CURSOR_LEFT];
               connSend (encodeStr "*")) ([] : List Nat) :=
    fun x hx => FMok_bind (FMok_send_unmarked [ESC, CURSOR_LEFT] (by decide))
      (fun _ => FMok_bind (FMok_send_unmarked [ESC, CURSOR_LEFT] (by decide))
        (fun _ => FMok_send_unmarked (encodeStr "*") (by decide)))
  have lb4 : ∀ x ∈ List.range 5,
      FMok (do connSend [ESC, CURSOR_UP]; connSend [ESC, CURSOR_LEFT];
               connSend (encodeStr "*")) ([] : List Nat) :=
    fun x hx => FMok_bind (FMok_send_unmarked [ESC, CURSOR_UP] (by decide))
      (fun _ => FMok_bind (FMok_send_unmarked [ESC, CURSOR_LEFT] (by decide))
        (fun _ => FMok_send_unmarked (encodeStr "*") (by decide)))
  apply FMok_congr
  apply FMok_bind (FMok_connSend2 _)
  intro _
  apply FMok_bind (FMok_connSend2 _)
  intro _
  apply FMok_bind hp
  intro _
  apply FMok_bind (FMok_connSend2 _)
  intro _
  apply FMok_bind hp2
  intro _
  apply FMok_bind (FMok_forList _ _ lb1)
  intro _
  apply FMok_bind (FMok_forList _ _ lb2)
  intro _
  apply FMok_bind (FMok_forList _ _ lb3)
  intro _
  exact FMok_forList _ _ lb4
  decide

theorem FMok_run_demo : FMok run_demo [1, 2, 3, 4, 5, 6] := by
  unfold run_demo
  have hw : FMok (sendLinesCRLF demoWelcomeLines) [] :=
    FMok_sendLinesCRLF demoWelcomeLines [] (by decide)
  have hs : FMok (sendLinesCRLF summaryLines) [6] :=
    FMok_sendLinesCRLF summaryLines [6] (by decide)
  have hp : FMok (position_cursor 1 1) [] :=
    FMok_position_cursorIn 1 1 (by norm_num) (by norm_num) (by norm_num) (by norm_num)
  apply FMok_congr
  apply FMok_bind
  apply FMok_tryAll_pure
  apply FMok_bind (FMok_connSend2 _)
  intro _
  apply FMok_bind (FMok_connSend2 _)
  intro _
  apply FMok_bind hw
  intro _
  apply FMok_bind FMok_test_control_chars
  intro _
  apply FMok_bind FMok_interlude
  intro _
  apply FMok_bind FMok_test_cursor_positioning
  intro _
  apply FMok_bind FMok_interlude
  intro _
  apply FMok_bind FMok_test_erase_functions
  intro _
  apply FMok_bind FMok_interlude
  intro _
  apply FMok_bind FMok_test_scroll_behavior
  intro _
  apply FMok_bind FMok_interlude
  intro _
  apply FMok_bind FMok_demo_cursor_movement
  intro _
  apply FMok_bind FMok_interlude
  intro _
  apply FMok_bind (FMok_connSend2 _)
  intro _
  apply FMok_bind (FMok_connSend2 _)
  intro _
  apply FMok_bind hp
  intro _
  exact hs
  intro _
  exact FMok_connClose
  decide

/-- C9: the demo variant's output stream is independent of any input
arriving on the connection — the run's result, send counter and action
trace do not depend on the receive oracle, the oracle is returned
untouched, and no receive action ever appears in the trace — and with
sends succeeding the demo completes normally, emitting the phase
headers (control characters, cursor positioning, erase functions,
scroll behavior, box drawing, then the summary) in exactly that fixed
order, each phase's sends unconditional. -/
theorem c9_demo_deterministic :
    inputFree run_demo ∧ FMok run_demo [1, 2, 3, 4, 5, 6] :=
  ⟨inputFree_run_demo, FMok_run_demo⟩

end VT52
